import Mathlib

/-!
Verification of the per-folder block operations core of kbfs
(`libkbfs/folder_block_ops.go`, `libkbfs/block_retrieval_queue.go`,
`libkbfs/folder_block_manager.go`), via a shallow embedding in Lean.

Go maps are embedded as association lists, Go slices as lists, and Go
pointer sharing (where it is semantically relevant, e.g. the shared
`blockPutState` in `revertSyncInfoAfterRecoverableError`) as explicit
integer-keyed stores.  Components of the repository that are referenced
by `folder_block_ops.go` but whose sources are not part of this tree
(the dirty-file tracker, the dirty block cache, the block splitter, the
retrieval heap) are modelled from the specification and marked as such
in their doc comments.
-/

set_option linter.unusedVariables false
set_option maxRecDepth 100000

deriving instance DecidableEq for Except

namespace KbfsProof

/-! ## Association list helpers (Go maps) -/

/-- Lookup in an association list (Go map read). -/
def lookupA {κ α : Type} [DecidableEq κ] : List (κ × α) → κ → Option α
  | [], _ => none
  | (k, v) :: t, k' => if k' = k then some v else lookupA t k'

/-- Insert/overwrite in an association list (Go map write). -/
def insertA {κ α : Type} [DecidableEq κ] : List (κ × α) → κ → α → List (κ × α)
  | [], k, v => [(k, v)]
  | (k0, v0) :: t, k, v =>
    if k = k0 then (k, v) :: t else (k0, v0) :: insertA t k v

/-- Remove a key from an association list (Go `delete`). -/
def eraseA {κ α : Type} [DecidableEq κ] : List (κ × α) → κ → List (κ × α)
  | [], _ => []
  | (k0, v0) :: t, k =>
    if k = k0 then eraseA t k else (k0, v0) :: eraseA t k

/-- Update the value at a key if present (Go mutation through a map entry). -/
def updateA {κ α : Type} [DecidableEq κ] (l : List (κ × α)) (k : κ) (f : α → α) :
    List (κ × α) :=
  match lookupA l k with
  | none => l
  | some v => insertA l k (f v)

theorem lookupA_insertA {κ α : Type} [DecidableEq κ]
    (l : List (κ × α)) (k k' : κ) (v : α) :
    lookupA (insertA l k v) k' = if k' = k then some v else lookupA l k' := by
  induction l with
  | nil => simp [insertA, lookupA]
  | cons h t ih =>
    obtain ⟨k0, v0⟩ := h
    by_cases hk : k = k0
    · subst hk
      by_cases hk' : k' = k <;> simp [insertA, lookupA, hk']
    · by_cases hk' : k' = k
      · subst hk'
        simp [insertA, lookupA, hk, ih, Ne.symm hk]
      · by_cases hk0 : k' = k0 <;>
          simp [insertA, lookupA, hk, hk', hk0, ih, Ne.symm hk]

theorem lookupA_eraseA {κ α : Type} [DecidableEq κ]
    (l : List (κ × α)) (k k' : κ) :
    lookupA (eraseA l k) k' = if k' = k then none else lookupA l k' := by
  induction l with
  | nil => simp [eraseA, lookupA]
  | cons h t ih =>
    obtain ⟨k0, v0⟩ := h
    by_cases hk : k = k0
    · subst hk
      by_cases hk' : k' = k
      · subst hk'
        simpa [eraseA] using ih
      · simp [eraseA, lookupA, hk', ih]
    · by_cases hk0 : k' = k0
      · subst hk0
        simp [eraseA, lookupA, hk, Ne.symm hk, ih]
      · simp [eraseA, lookupA, hk, hk0, ih]

theorem mem_insertA_elim {κ α : Type} [DecidableEq κ]
    {l : List (κ × α)} {k : κ} {v : α} {e : κ × α}
    (h : e ∈ insertA l k v) : e ∈ l ∨ e = (k, v) := by
  induction l with
  | nil => simpa [insertA] using h
  | cons hd t ih =>
    obtain ⟨k0, v0⟩ := hd
    by_cases hk : k = k0
    · simp [insertA, hk] at h
      rcases h with h | h
      · exact Or.inr (by simp [h, hk])
      · exact Or.inl (List.mem_cons_of_mem _ h)
    · simp [insertA, hk] at h
      rcases h with h | h
      · exact Or.inl (by simp [h])
      · rcases ih h with h' | h'
        · exact Or.inl (List.mem_cons_of_mem _ h')
        · exact Or.inr h'

theorem mem_updateA_elim {κ α : Type} [DecidableEq κ]
    {l : List (κ × α)} {k : κ} {f : α → α} {e : κ × α}
    (h : e ∈ updateA l k f) :
    e ∈ l ∨ ∃ v, lookupA l k = some v ∧ e = (k, f v) := by
  unfold updateA at h
  cases hl : lookupA l k with
  | none => rw [hl] at h; exact Or.inl h
  | some v =>
    rw [hl] at h
    rcases mem_insertA_elim h with h' | h'
    · exact Or.inl h'
    · exact Or.inr ⟨v, rfl, h'⟩

theorem lookupA_mem {κ α : Type} [DecidableEq κ]
    {l : List (κ × α)} {k : κ} {v : α} (h : lookupA l k = some v) :
    (k, v) ∈ l := by
  induction l with
  | nil => simp [lookupA] at h
  | cons hd t ih =>
    obtain ⟨k0, v0⟩ := hd
    by_cases hk : k = k0
    · subst hk
      simp [lookupA] at h
      simp [h]
    · simp [lookupA, hk] at h
      exact List.mem_cons_of_mem _ (ih h)

theorem lookupA_updateA {κ α : Type} [DecidableEq κ]
    (l : List (κ × α)) (k k' : κ) (f : α → α) :
    lookupA (updateA l k f) k' =
      if k' = k then (lookupA l k).map f else lookupA l k' := by
  unfold updateA
  cases h : lookupA l k with
  | none => by_cases hk : k' = k <;> simp [hk, h]
  | some v => rw [lookupA_insertA]; by_cases hk : k' = k <;> simp [hk, h]

/-! ## Base data model (`BlockPointer`, `BlockRef`, blocks, entries)

From the Go data model: `BlockPointer{ID, KeyGen, DataVer, Creator,
RefNonce}`; `BlockRef{ID, RefNonce}` used as a map key; `BlockInfo` adds
`EncodedSize`.  `KeyGen`, `DataVer` and `Creator` never influence any of
the verified claims and are dropped; `ID` and `RefNonce` are kept since
`ref()` projects onto them. -/

structure BlockPointer where
  id : Nat
  refNonce : Nat
deriving DecidableEq, Repr

structure BlockRef where
  id : Nat
  refNonce : Nat
deriving DecidableEq, Repr

/-- `BlockPointer.ref()` from the Go source. -/
def BlockPointer.ref (p : BlockPointer) : BlockRef :=
  ⟨p.id, p.refNonce⟩

structure BlockInfo where
  ptr : BlockPointer
  encodedSize : Nat
deriving DecidableEq, Repr

/-- `IndirectFilePtr{BlockInfo, Off, Holes}`. -/
structure IndirectFilePtr where
  info : BlockInfo
  off : Int
  holes : Bool
deriving DecidableEq, Repr

/-- `FileBlock`: a common header flag `IsInd` plus both the direct
(`Contents`) and indirect (`IPtrs`) payloads, exactly as in the Go
struct (only one of the payloads is populated at a time). -/
structure FileBlock where
  isInd : Bool
  contents : List Nat
  iptrs : List IndirectFilePtr
deriving DecidableEq, Repr

def FileBlock.childPtrs (b : FileBlock) : List BlockPointer :=
  b.iptrs.map (fun ip => ip.info.ptr)

/-- `DirEntry` (the fields relevant to the claims: the embedded
`BlockInfo` and `Size`). -/
structure DirEntry where
  info : BlockInfo
  size : Nat
deriving DecidableEq, Repr

/-- `DirEntry.ref()` from the Go source. -/
def DirEntry.ref (de : DirEntry) : BlockRef :=
  de.info.ptr.ref

/-- A file path, reduced to the data the file operations consult: the
parent directory's tail pointer, the file's name in that directory, and
the file's tail pointer.  `valid` models `Path.IsValid()`. -/
structure FilePath where
  parentPtr : BlockPointer
  name : String
  tailPtr : BlockPointer
  valid : Bool
deriving DecidableEq, Repr

/-! ## Block retrieval queue (`block_retrieval_queue.go`)

The Go queue shares `*blockRetrieval` objects between the pointer map
and the heap; the model uses an id-keyed store for those objects.  The
heap itself (`blockRetrievalHeap`, a separate file not in this tree) is
modelled from the spec: max-priority order with FIFO tie-breaks on
`insertionOrder`, and popping an element sets its `index` to `-1` ("the
request is no longer in the queue (which means it's actively being
processed)", per the comment in `Request`). -/

/-- `blockRetrievalRequest`: one consumer's request.  The context and
destination block are irrelevant to the queueing claims; the response
channel is identified by a token. -/
structure BlockRetrievalRequest where
  chanId : Nat
deriving DecidableEq, Repr

/-- `blockRetrieval`: the shared record for all requests of one pointer. -/
structure BlockRetrieval where
  blockPtr : BlockPointer
  requests : List BlockRetrievalRequest
  index : Int
  priority : Int
  insertionOrder : Nat
deriving DecidableEq, Repr

/-- `blockRetrievalQueue`.  `store` holds the shared `*blockRetrieval`
objects; `ptrs` maps a block pointer to the id of its live retrieval;
`heapIds` holds the ids currently on the heap. -/
structure BlockRetrievalQueue where
  ptrs : List (BlockPointer × Nat)
  store : List (Nat × BlockRetrieval)
  nextRid : Nat
  insertionCount : Nat
  heapIds : List Nat
deriving DecidableEq, Repr

def emptyQueue : BlockRetrievalQueue :=
  ⟨[], [], 0, 0, []⟩

/-- `Request`: coalesce onto an existing retrieval for the pointer if
one is live, else insert a fresh retrieval with the next insertion
order. -/
def Request (q : BlockRetrievalQueue) (priority : Int) (ptr : BlockPointer)
    (req : BlockRetrievalRequest) : BlockRetrievalQueue :=
  match lookupA q.ptrs ptr with
  | none =>
    let rid := q.nextRid
    let br : BlockRetrieval :=
      { blockPtr := ptr
        requests := [req]
        index := Int.ofNat q.heapIds.length
        priority := priority
        insertionOrder := q.insertionCount }
    { ptrs := insertA q.ptrs ptr rid
      store := insertA q.store rid br
      nextRid := rid + 1
      insertionCount := q.insertionCount + 1
      heapIds := q.heapIds ++ [rid] }
  | some rid =>
    { q with
      store := updateA q.store rid (fun br =>
        let br := { br with requests := br.requests ++ [req] }
        if br.index ≠ -1 ∧ priority > br.priority then
          { br with priority := priority }
        else br) }

/-- The heap's `Less`: larger priority first, FIFO (smaller
`insertionOrder`) within a priority.  Modelled from the spec ("strict
max-priority, ties broken by ascending insertionOrder"). -/
def retrievalBefore (a b : BlockRetrieval) : Bool :=
  a.priority > b.priority ∨ (a.priority = b.priority ∧ a.insertionOrder < b.insertionOrder)

/-- The id of the highest-priority retrieval currently on the heap. -/
def heapTop (q : BlockRetrievalQueue) : Option Nat :=
  q.heapIds.foldl (fun best rid =>
    match best, lookupA q.store rid with
    | none, some _ => some rid
    | some b, some br =>
      match lookupA q.store b with
      | some bbr => if retrievalBefore br bbr then some rid else some b
      | none => some rid
    | _, none => best) none

/-- The action performed when a worker becomes ready
(`notifyWorker`/`WorkOnRequest`): pop the top retrieval off the heap;
the popped retrieval's `index` becomes `-1` but it stays in `ptrs`
until `FinalizeRequest`. -/
def popForWorker (q : BlockRetrievalQueue) : BlockRetrievalQueue × Option Nat :=
  match heapTop q with
  | none => (q, none)
  | some rid =>
    ({ q with
        heapIds := q.heapIds.filter (fun r => r ≠ rid)
        store := updateA q.store rid (fun br => { br with index := -1 }) },
     some rid)

/-- `FinalizeRequest`: drop the pointer from the live-retrieval index so
that later requesters start a new retrieval. -/
def FinalizeRequest (q : BlockRetrievalQueue) (ptr : BlockPointer) :
    BlockRetrievalQueue :=
  { q with ptrs := eraseA q.ptrs ptr }

/-- Global-counter invariant of the queue: every stored retrieval was
inserted at a strictly smaller value of the insertion counter. -/
def QueueWF (q : BlockRetrievalQueue) : Prop :=
  ∀ e ∈ q.store, e.2.insertionOrder < q.insertionCount

instance (q : BlockRetrievalQueue) : Decidable (QueueWF q) :=
  List.decidableBAll _ q.store

theorem Request_eq_of_none {q : BlockRetrievalQueue} {prio : Int}
    {ptr : BlockPointer} {req : BlockRetrievalRequest}
    (hp : lookupA q.ptrs ptr = none) :
    Request q prio ptr req =
      { ptrs := insertA q.ptrs ptr q.nextRid
        store := insertA q.store q.nextRid
          ⟨ptr, [req], Int.ofNat q.heapIds.length, prio, q.insertionCount⟩
        nextRid := q.nextRid + 1
        insertionCount := q.insertionCount + 1
        heapIds := q.heapIds ++ [q.nextRid] } := by
  unfold Request
  rw [hp]

theorem Request_eq_of_some {q : BlockRetrievalQueue} {prio : Int}
    {ptr : BlockPointer} {req : BlockRetrievalRequest} {rid : Nat}
    (hp : lookupA q.ptrs ptr = some rid) :
    Request q prio ptr req =
      { q with store := updateA q.store rid (fun br =>
          let br := { br with requests := br.requests ++ [req] }
          if br.index ≠ -1 ∧ prio > br.priority then
            { br with priority := prio }
          else br) } := by
  unfold Request
  rw [hp]

/-! ### C4 -/

def c4P : BlockPointer := ⟨1, 0⟩

/-- One request at priority 1, then a worker pops the retrieval (so its
`index` becomes `-1` while it is still registered in `ptrs`), then a
second request at priority 5 arrives. -/
def c4q1 : BlockRetrievalQueue := Request emptyQueue 1 c4P ⟨10⟩

def c4q2 : BlockRetrievalQueue := (popForWorker c4q1).1

def c4q3 : BlockRetrievalQueue := Request c4q2 5 c4P ⟨11⟩

/-- C4, counterexample.  A retrieval for `c4P` still exists in the queue
(`Requested` and not yet `FinalizeRequest`-ed), a further `Request` at
priority 5 > 1 arrives and is appended to the existing retrieval, yet
the retrieval's priority is *not* raised to 5: the retrieval has already
been handed to a worker (`index = -1`), and `Request` skips the re-heap
in that case.  This falsifies the claim's unconditional "if the new
priority is greater ... the retrieval is re-heaped at the raised
priority". -/
theorem c4_counterexample :
    lookupA c4q2.ptrs c4P = some 0 ∧
    (lookupA c4q2.store 0).map (fun br => br.index) = some (-1) ∧
    lookupA c4q3.ptrs c4P = some 0 ∧
    (lookupA c4q3.store 0).map (fun br => br.requests.length) = some 2 ∧
    (lookupA c4q3.store 0).map (fun br => br.priority) = some 1 ∧
    ((lookupA c4q3.store 0).map (fun br => br.priority) = some 5 → False) := by
  decide

/-- C4, amended: while a retrieval for a pointer exists in the queue, a
further `Request` for it creates no new retrieval and is appended to the
existing retrieval (so all requesters share the single fetch); its
priority is raised to a higher requested priority *only while the
retrieval is still on the heap* (`index ≠ -1`); once a worker has picked
it up the priority is left unchanged.  A `Request` for a pointer with no
live retrieval inserts a new retrieval carrying the current value of the
strictly increasing insertion counter. -/
theorem c4_request_coalesces
    (q : BlockRetrievalQueue) (prio : Int) (ptr : BlockPointer)
    (req : BlockRetrievalRequest) (hwf : QueueWF q) :
    QueueWF (Request q prio ptr req) ∧
    (∀ rid br, lookupA q.ptrs ptr = some rid → lookupA q.store rid = some br →
      (Request q prio ptr req).ptrs = q.ptrs ∧
      (Request q prio ptr req).nextRid = q.nextRid ∧
      (Request q prio ptr req).insertionCount = q.insertionCount ∧
      lookupA (Request q prio ptr req).store rid =
        some { br with
               requests := br.requests ++ [req]
               priority := if br.index ≠ -1 ∧ prio > br.priority then prio
                           else br.priority }) ∧
    (lookupA q.ptrs ptr = none →
      lookupA (Request q prio ptr req).ptrs ptr = some q.nextRid ∧
      lookupA (Request q prio ptr req).store q.nextRid =
        some ⟨ptr, [req], Int.ofNat q.heapIds.length, prio, q.insertionCount⟩ ∧
      (Request q prio ptr req).insertionCount = q.insertionCount + 1 ∧
      (∀ e ∈ q.store,
        e.2.insertionOrder <
          (⟨ptr, [req], Int.ofNat q.heapIds.length, prio, q.insertionCount⟩ :
            BlockRetrieval).insertionOrder)) := by
  refine ⟨?_, ?_, ?_⟩
  · intro e he
    cases hp : lookupA q.ptrs ptr with
    | none =>
      rw [Request_eq_of_none hp] at he ⊢
      simp only at he ⊢
      rcases mem_insertA_elim he with h | h
      · exact Nat.lt_succ_of_lt (hwf e h)
      · subst h
        exact Nat.lt_succ_self _
    | some rid =>
      rw [Request_eq_of_some hp] at he ⊢
      simp only at he ⊢
      rcases mem_updateA_elim he with h | h
      · exact hwf e h
      · obtain ⟨v, hv, hev⟩ := h
        have hlt := hwf (rid, v) (lookupA_mem hv)
        subst hev
        simp only at hlt ⊢
        split <;> simpa using hlt
  · intro rid br hp hs
    rw [Request_eq_of_some hp]
    refine ⟨rfl, rfl, rfl, ?_⟩
    simp only [lookupA_updateA, if_pos rfl, hs, Option.map_some]
    by_cases hc : br.index ≠ -1 ∧ prio > br.priority <;> simp [hc]
  · intro hp
    rw [Request_eq_of_none hp]
    refine ⟨?_, ?_, rfl, ?_⟩
    · simp [lookupA_insertA]
    · simp [lookupA_insertA]
    · intro e he
      exact hwf e he

/-- C4 witness: instantiates `c4_request_coalesces` on a queue holding
one live, still-heaped retrieval at priority 1 and a new request at
priority 5; the retrieval's priority is raised to 5 and the request is
appended. -/
theorem c4_request_coalesces_witness :
    (QueueWF c4q1 ∧ lookupA c4q1.ptrs c4P = some 0 ∧
      lookupA c4q1.store 0 = some ⟨c4P, [⟨10⟩], 0, 1, 0⟩) ∧
    lookupA (Request c4q1 5 c4P ⟨11⟩).store 0 =
      some ⟨c4P, [⟨10⟩, ⟨11⟩], 0, 5, 0⟩ := by
  have h := (c4_request_coalesces c4q1 5 c4P ⟨11⟩ (by decide)).2.1 0
      ⟨c4P, [⟨10⟩], 0, 1, 0⟩ (by decide) (by decide)
  exact ⟨⟨by decide, by decide, by decide⟩, h.2.2.2.trans (by decide)⟩

/-! ## Folder block manager: quota reclamation (`folder_block_manager.go`)

Only the pure range/batch logic of `doReclamation` and
`getUnreferencedBlocks` is embedded; the walk over `getMDRange` chunks
visits merged revisions in descending order, which the model takes as an
input list in that order. -/

def numPointersPerGCThreshold : Nat := 100

def numMaxRevisionsPerQR : Int := 100

/-- One metadata operation, as consulted by quota reclamation: a `gcOp`
flag, the `Unrefs()` list, and `AllUpdates()` as `(Ref, Unref)` pairs. -/
structure MDOp where
  isGCOp : Bool
  unrefs : List BlockPointer
  updates : List (BlockPointer × BlockPointer)
deriving DecidableEq, Repr

structure RevMD where
  revision : Int
  ops : List MDOp
deriving DecidableEq, Repr

/-- The pointers one revision contributes to reclamation: for every
non-`gcOp` operation, its unrefs plus the `Unref` half of every update
whose two pointers differ. -/
def revPtrs (r : RevMD) : List BlockPointer :=
  r.ops.foldl (fun acc op =>
    if op.isGCOp then acc
    else acc ++ op.unrefs ++
      (op.updates.filter (fun u => u.1 ≠ u.2)).map (fun u => u.2)) []

/-- The gathering loop of `getUnreferencedBlocks`: walk the revisions
(descending) down to just above `earliestRev`, appending each
revision's pointers and recording, per revision, the position in `ptrs`
at which its pointers start. -/
def collectUnrefs (earliestRev : Int) :
    List RevMD → List BlockPointer → List (Int × Nat) →
    List BlockPointer × List (Int × Nat)
  | [], ptrs, pos => (ptrs, pos)
  | r :: rest, ptrs, pos =>
    if r.revision ≤ earliestRev then (ptrs, pos)
    else collectUnrefs earliestRev rest (ptrs ++ revPtrs r)
      (pos ++ [(r.revision, ptrs.length)])

/-- The batch-threshold logic at the end of `getUnreferencedBlocks`:
when more than `numPointersPerGCThreshold` pointers were gathered, scan
`revStartPositions` for the smallest revision whose start position
leaves more than the threshold behind it, and if that revision is
strictly older than the original `latestRev`, cut the batch there and
mark the run incomplete.  (A missing map key reads as Go's zero value.) -/
def shortenRange (ptrs : List BlockPointer) (positions : List (Int × Nat))
    (latestRev : Int) : List BlockPointer × Int × Bool :=
  if ptrs.length > numPointersPerGCThreshold then
    let threshStart := ptrs.length - numPointersPerGCThreshold
    let origLatestRev := latestRev
    let latestRev := positions.foldl (fun lr e =>
      if e.2 < threshStart ∧ e.1 < lr then e.1 else lr) latestRev
    if latestRev < origLatestRev then
      (ptrs.drop ((lookupA positions latestRev).getD 0), latestRev, false)
    else (ptrs, latestRev, true)
  else (ptrs, latestRev, true)

/-- `getUnreferencedBlocks(latestRev, earliestRev)`; the revision `-1`
stands for `MetadataRevisionUninitialized`. -/
def getUnreferencedBlocks (mds : List RevMD) (latestRev earliestRev : Int) :
    List BlockPointer × Int × Bool :=
  if latestRev ≤ earliestRev then ([], -1, true)
  else
    let c := collectUnrefs earliestRev mds [] []
    shortenRange c.1 c.2 latestRev

/-- The revision-span cap applied in `doReclamation`: consider at most
`numMaxRevisionsPerQR` revisions past `lastGCRev` in one run. -/
def capOldEnoughRev (mostRecentOldEnoughRev lastGCRev : Int) : Int :=
  if mostRecentOldEnoughRev - lastGCRev > numMaxRevisionsPerQR then
    lastGCRev + numMaxRevisionsPerQR
  else mostRecentOldEnoughRev

/-! ### C8 -/

/-- Two revisions: the newer one unreferences 150 pointers, the older
one a single pointer. -/
def c8mds : List RevMD :=
  [⟨20, [⟨false, (List.range 150).map (fun i => ⟨i, 0⟩), []⟩]⟩,
   ⟨19, [⟨false, [⟨500, 0⟩], []⟩]⟩]

/-- C8, counterexample.  151 pointers are collected from the range
(19, 20], exceeding `numPointersPerGCThreshold = 100` — but the only
revision boundary that keeps the batch above the threshold is the
original latest revision itself, so `getUnreferencedBlocks` does not
shorten the range and the run is recorded as *complete*, contradicting
the claim that exceeding the threshold always records the run as
incomplete. -/
theorem c8_counterexample :
    (getUnreferencedBlocks c8mds 20 18).1.length = 151 ∧
    numPointersPerGCThreshold < (getUnreferencedBlocks c8mds 20 18).1.length ∧
    (getUnreferencedBlocks c8mds 20 18).2.1 = 20 ∧
    (getUnreferencedBlocks c8mds 20 18).2.2 = true := by
  decide

/-- The running-minimum loop over `revStartPositions` in
`getUnreferencedBlocks` computes the least revision whose start
position lies below the threshold boundary (or keeps the initial value
if there is none), independently of map iteration order in the sense
that the list fold realises exactly that minimum. -/
theorem shortenFold_spec (t : Nat) (positions : List (Int × Nat)) (init : Int) :
    (positions.foldl (fun lr e => if e.2 < t ∧ e.1 < lr then e.1 else lr) init)
        ≤ init ∧
    ((positions.foldl (fun lr e => if e.2 < t ∧ e.1 < lr then e.1 else lr) init)
        = init ∨
      ∃ e ∈ positions,
        e.1 = (positions.foldl
          (fun lr e => if e.2 < t ∧ e.1 < lr then e.1 else lr) init) ∧
        e.2 < t) ∧
    (∀ e ∈ positions, e.2 < t →
      (positions.foldl (fun lr e => if e.2 < t ∧ e.1 < lr then e.1 else lr) init)
        ≤ e.1) := by
  induction positions generalizing init with
  | nil => exact ⟨le_refl _, Or.inl rfl, by simp⟩
  | cons e rest ih =>
    simp only [List.foldl_cons]
    by_cases hc : e.2 < t ∧ e.1 < init
    · rw [if_pos hc]
      obtain ⟨ih1, ih2, ih3⟩ := ih e.1
      refine ⟨ih1.trans (le_of_lt hc.2), ?_, ?_⟩
      · rcases ih2 with h | ⟨e', he', h1, h2⟩
        · exact Or.inr ⟨e, List.mem_cons_self _ _, h.symm, hc.1⟩
        · exact Or.inr ⟨e', List.mem_cons_of_mem _ he', h1, h2⟩
      · intro e' he' ht'
        rcases List.mem_cons.mp he' with rfl | h
        · exact ih1
        · exact ih3 e' h ht'
    · rw [if_neg hc]
      obtain ⟨ih1, ih2, ih3⟩ := ih init
      refine ⟨ih1, ?_, ?_⟩
      · rcases ih2 with h | ⟨e', he', h1, h2⟩
        · exact Or.inl h
        · exact Or.inr ⟨e', List.mem_cons_of_mem _ he', h1, h2⟩
      · intro e' he' ht'
        rcases List.mem_cons.mp he' with rfl | h
        · have hnl : ¬ e'.1 < init := fun hlt => hc ⟨ht', hlt⟩
          exact ih1.trans (not_lt.mp hnl)
        · exact ih3 e' h ht'

/-- C8, amended: the revision span of a reclamation run is capped at
`numMaxRevisionsPerQR = 100` past `lastGCRev`; and when the collected
pointers exceed `numPointersPerGCThreshold = 100`, the range's latest
revision is moved to the oldest revision boundary that still keeps the
batch strictly above the threshold — if that boundary is strictly older
than the original latest revision the batch is cut there and the run is
recorded incomplete, while if the boundary is the original latest
revision itself the batch is returned whole and the run remains
complete. -/
theorem c8_reclamation_bounds
    (m l : Int)
    (ptrs : List BlockPointer) (positions : List (Int × Nat)) (latestRev : Int)
    (h1 : lookupA positions latestRev = some 0)
    (h3 : ∀ e ∈ positions, lookupA positions e.1 = some e.2)
    (hlen : numPointersPerGCThreshold < ptrs.length) :
    (capOldEnoughRev m l - l ≤ numMaxRevisionsPerQR ∨ m - l ≤ numMaxRevisionsPerQR) ∧
    (∃ i, lookupA positions (shortenRange ptrs positions latestRev).2.1 = some i ∧
      i < ptrs.length - numPointersPerGCThreshold ∧
      (shortenRange ptrs positions latestRev).2.1 ≤ latestRev ∧
      (shortenRange ptrs positions latestRev).1 =
        (if (shortenRange ptrs positions latestRev).2.1 < latestRev
         then ptrs.drop i else ptrs) ∧
      numPointersPerGCThreshold < (shortenRange ptrs positions latestRev).1.length ∧
      (∀ e ∈ positions, e.2 < ptrs.length - numPointersPerGCThreshold →
        (shortenRange ptrs positions latestRev).2.1 ≤ e.1) ∧
      ((shortenRange ptrs positions latestRev).2.2 = false ↔
        (shortenRange ptrs positions latestRev).2.1 < latestRev)) := by
  constructor
  · unfold capOldEnoughRev
    split <;> omega
  have hfold := shortenFold_spec (ptrs.length - numPointersPerGCThreshold)
      positions latestRev
  set t := ptrs.length - numPointersPerGCThreshold with ht
  set r := positions.foldl (fun lr e => if e.2 < t ∧ e.1 < lr then e.1 else lr)
      latestRev with hr
  obtain ⟨hle, hchar, hmin⟩ := hfold
  have hsr : shortenRange ptrs positions latestRev =
      (if r < latestRev
       then (ptrs.drop ((lookupA positions r).getD 0), r, false)
       else (ptrs, r, true)) := by
    unfold shortenRange
    rw [if_pos hlen]
  by_cases hcase : r < latestRev
  · rcases hchar with h | ⟨e, he, he1, he2⟩
    · omega
    · have hlook : lookupA positions r = some e.2 := by
        rw [← he1]
        exact h3 e he
      have hsr2 : shortenRange ptrs positions latestRev =
          (ptrs.drop e.2, r, false) := by
        rw [hsr, if_pos hcase, hlook]
        rfl
      refine ⟨e.2, ?_, he2, ?_, ?_, ?_, ?_, ?_⟩
      · rw [hsr2]
        exact hlook
      · rw [hsr2]
        exact le_of_lt hcase
      · rw [hsr2]
        simp [hcase]
      · rw [hsr2]
        simp only [List.length_drop]
        omega
      · intro e' he' ht'
        rw [hsr2]
        exact hmin e' he' ht'
      · rw [hsr2]
        simp [hcase]
  · have hreq : r = latestRev := le_antisymm hle (not_lt.mp hcase)
    have hsr2 : shortenRange ptrs positions latestRev = (ptrs, r, true) := by
      rw [hsr, if_neg hcase]
    refine ⟨0, ?_, by omega, ?_, ?_, ?_, ?_, ?_⟩
    · rw [hsr2, hreq]
      exact h1
    · rw [hsr2]
      exact le_of_eq hreq
    · rw [hsr2]
      simp [hreq]
    · rw [hsr2]
      exact hlen
    · intro e' he' ht'
      rw [hsr2]
      exact hmin e' he' ht'
    · rw [hsr2]
      simp [hreq]

/-- Five revisions carrying 30 pointers each. -/
def c8wmds : List RevMD :=
  (List.range 5).map (fun k =>
    ⟨Int.ofNat (5 - k), [⟨false, (List.range 30).map (fun i => ⟨30 * k + i, 0⟩), []⟩]⟩)

/-- C8 witness: on five descending revisions of 30 pointers each (150
total), the theorem applies; the range is cut at revision 4 (dropping
the newest revision's 30 pointers would leave 120 > 100), and the run
is marked incomplete. -/
theorem c8_reclamation_bounds_witness :
    (lookupA (collectUnrefs 0 c8wmds [] []).2 5 = some 0 ∧
      (∀ e ∈ (collectUnrefs 0 c8wmds [] []).2,
        lookupA (collectUnrefs 0 c8wmds [] []).2 e.1 = some e.2) ∧
      numPointersPerGCThreshold < (collectUnrefs 0 c8wmds [] []).1.length) ∧
    (∃ i, lookupA (collectUnrefs 0 c8wmds [] []).2
        (shortenRange (collectUnrefs 0 c8wmds [] []).1
          (collectUnrefs 0 c8wmds [] []).2 5).2.1 = some i ∧
      i < (collectUnrefs 0 c8wmds [] []).1.length - numPointersPerGCThreshold ∧
      (shortenRange (collectUnrefs 0 c8wmds [] []).1
          (collectUnrefs 0 c8wmds [] []).2 5).2.1 ≤ 5 ∧
      (shortenRange (collectUnrefs 0 c8wmds [] []).1
          (collectUnrefs 0 c8wmds [] []).2 5).1 =
        (if (shortenRange (collectUnrefs 0 c8wmds [] []).1
              (collectUnrefs 0 c8wmds [] []).2 5).2.1 < 5
         then (collectUnrefs 0 c8wmds [] []).1.drop i
         else (collectUnrefs 0 c8wmds [] []).1) ∧
      numPointersPerGCThreshold <
        (shortenRange (collectUnrefs 0 c8wmds [] []).1
          (collectUnrefs 0 c8wmds [] []).2 5).1.length ∧
      (∀ e ∈ (collectUnrefs 0 c8wmds [] []).2,
        e.2 < (collectUnrefs 0 c8wmds [] []).1.length - numPointersPerGCThreshold →
        (shortenRange (collectUnrefs 0 c8wmds [] []).1
          (collectUnrefs 0 c8wmds [] []).2 5).2.1 ≤ e.1) ∧
      ((shortenRange (collectUnrefs 0 c8wmds [] []).1
          (collectUnrefs 0 c8wmds [] []).2 5).2.2 = false ↔
        (shortenRange (collectUnrefs 0 c8wmds [] []).1
          (collectUnrefs 0 c8wmds [] []).2 5).2.1 < 5)) :=
  ⟨⟨by decide, by decide, by decide⟩,
    (c8_reclamation_bounds 0 0 (collectUnrefs 0 c8wmds [] []).1
      (collectUnrefs 0 c8wmds [] []).2 5 (by decide) (by decide) (by decide)).2⟩

/-! ## Folder block ops (`folder_block_ops.go`): data model

The per-folder state guarded by `blockLock`, together with the external
caches it manipulates.  Go pointer-shared `*blockPutState` objects are
held in an id-keyed store (`bpsStore`); `syncInfo` objects live in
`unrefCache` and are mutated through their key, exactly as Go mutates
them through the shared pointer. -/

inductive KbfsError
  | invalidPath
  | writeAccess
  | fileTooBig
  | noSuchName
  | noSuchBlock
  | badSplit
  | deadlineExceeded
  | finishSyncDirty
  | indexPanic
  | outOfFuel
  | recoverableBlock
  | permanentBlock
deriving DecidableEq, Repr

/-- Modelled from the spec (§7): the predicate singling out the
recoverable subset of block-service errors. -/
def isRecoverableBlockError (e : KbfsError) : Bool :=
  e = .recoverableBlock

/-- `WriteRange{Off, Len}` of a `syncOp`; a truncate records `(size, 0)`. -/
structure WriteRange where
  off : Nat
  len : Nat
deriving DecidableEq, Repr

/-- The update-tracking and write-range state of a `syncOp` (modelled
from the spec: the rollback path resets only the update-tracking
fields). -/
structure SyncOpT where
  writes : List WriteRange
  updates : List (BlockPointer × BlockPointer)
deriving DecidableEq, Repr

structure BpsBlockState where
  blockPtr : BlockPointer
deriving DecidableEq, Repr

/-- `blockPutState`: the list of blocks readied for upload. -/
structure BlockPutState where
  blockStates : List BpsBlockState
deriving DecidableEq, Repr

/-- `syncInfo`; `bps` is a reference into the `blockPutState` store
(Go's `*blockPutState`). -/
structure SyncInfo where
  oldInfo : BlockInfo
  op : SyncOpT
  unrefs : List BlockInfo
  bps : Option Nat
  refBytes : Nat
  unrefBytes : Nat
deriving DecidableEq, Repr

/-- Per-block tracking flags of the dirty-file tracker.  Modelled from
the spec (§4.2): a block can simultaneously be dirty and syncing (the
top block is dirtied by every write and marked syncing by `StartSync`),
and `Orphaned` is toggled independently by `setBlockOrphaned`. -/
structure BlkTrack where
  dirty : Bool
  syncing : Bool
  synced : Bool
  orphaned : Bool
deriving DecidableEq, Repr

/-- Modelled from the spec (§4.2): the per-file dirty tracker
(`dirtyFile`, whose source is not part of this tree): a block-state
map, the unsynced-byte ledgers, and error listeners. -/
structure DirtyFile where
  blockStates : List (BlockPointer × BlkTrack)
  notYetSyncingBytes : Int
  deferredNewBytes : Int
  errListeners : List Nat
deriving DecidableEq, Repr

/-- Deferred writes are closures in Go capturing `(dataCopy, off,
file-path-at-defer-time, newlyDirtiedChildBytes)`; following the spec's
design note they are embedded as a variant replayed by dispatch. -/
inductive DeferredOp
  | write (origFile : FilePath) (data : List Nat) (off : Int)
      (newlyDirtiedChildBytes : Int)
  | truncate (origFile : FilePath) (size : Nat)
      (newlyDirtiedChildBytes : Int)
deriving DecidableEq, Repr

inductive CleanLife
  | transient
  | permanent
deriving DecidableEq, Repr

/-- The folder state: the `folderBlockOps` fields guarded by
`blockLock`, plus the dirty block cache (this folder's branch), the
clean block cache, the block server's blocks (for fetches), the parent
directory blocks, the `blockPutState` store, the temporary-id supply of
`Crypto.MakeTemporaryBlockID`, the global unsynced-bytes counter of the
dirty block cache, and an audit trail of error-listener notifications. -/
structure FBOState where
  dirtyBcache : List (BlockPointer × FileBlock)
  cleanBcache : List (BlockPointer × (FileBlock × CleanLife))
  srvBlocks : List (BlockPointer × FileBlock)
  dirStore : List (BlockPointer × List (String × DirEntry))
  deCache : List (BlockRef × DirEntry)
  unrefCache : List (BlockRef × SyncInfo)
  dirtyFiles : List (BlockPointer × DirtyFile)
  deferredWrites : List DeferredOp
  deferredDirtyDeletes : List BlockPointer
  doDeferWrite : Bool
  bpsStore : List (Nat × BlockPutState)
  nextBlockId : Nat
  unsyncedBytes : Int
  notifications : List (Nat × KbfsError)
deriving DecidableEq, Repr

/-- Configuration: `MaxFileBytes`, the simple splitter's block-size
boundary, and whether the current user is a writer of the TLF. -/
structure Config where
  maxFileBytes : Nat
  maxBlockSize : Nat
  isWriter : Bool
deriving DecidableEq, Repr

/-! ### Caches and tracker operations -/

def dirtyIsDirty (st : FBOState) (ptr : BlockPointer) : Bool :=
  (lookupA st.dirtyBcache ptr).isSome

/-- Modelled from the spec (§4.1): `DirtyBlockCache.Delete` removes the
entry for this branch. -/
def dirtyDelete (st : FBOState) (ptr : BlockPointer) : FBOState :=
  { st with dirtyBcache := eraseA st.dirtyBcache ptr }

def cleanGet (st : FBOState) (ptr : BlockPointer) : Option FileBlock :=
  (lookupA st.cleanBcache ptr).map (fun e => e.1)

/-- `BlockCache.DeletePermanent(id)`: drop permanent clean-cache entries
with the given block ID. -/
def cleanDeletePermanent (st : FBOState) (id : Nat) : FBOState :=
  { st with cleanBcache := (st.cleanBcache.filter
      (fun e => ¬ (e.1.id = id ∧ e.2.2 = CleanLife.permanent))) }

/-- `getBlockFromDirtyOrCleanCache` followed by a server fetch that
inserts the block into the clean cache as transient
(`getBlockHelperLocked` with `doCache`). -/
def getFileBlockL (st : FBOState) (ptr : BlockPointer) :
    Except KbfsError (FBOState × FileBlock) :=
  match lookupA st.dirtyBcache ptr with
  | some b => .ok (st, b)
  | none =>
    match cleanGet st ptr with
    | some b => .ok (st, b)
    | none =>
      match lookupA st.srvBlocks ptr with
      | some b =>
        .ok ({ st with
          cleanBcache := insertA st.cleanBcache ptr (b, CleanLife.transient) },
          b)
      | none => .error .noSuchBlock

def newDirtyFile : DirtyFile :=
  ⟨[], 0, 0, []⟩

def getOrCreateDirtyFile (st : FBOState) (file : FilePath) :
    FBOState × DirtyFile :=
  match lookupA st.dirtyFiles file.tailPtr with
  | some df => (st, df)
  | none =>
    ({ st with dirtyFiles := insertA st.dirtyFiles file.tailPtr newDirtyFile },
     newDirtyFile)

def putDirtyFile (st : FBOState) (file : FilePath) (df : DirtyFile) : FBOState :=
  { st with dirtyFiles := insertA st.dirtyFiles file.tailPtr df }

/-- Modelled from the spec (§4.2): `setBlockDirty(ptr)` marks the block
dirty and reports whether the pointer is new to the tracker
(`needsCaching`) and whether any block of the file is currently syncing
(`isSyncing`, which makes the caller defer the write). -/
def dfSetBlockDirty (df : DirtyFile) (ptr : BlockPointer) :
    DirtyFile × Bool × Bool :=
  let needsCaching := (lookupA df.blockStates ptr).isNone
  let isSyncing := df.blockStates.any (fun e => e.2.syncing)
  let tr := match lookupA df.blockStates ptr with
    | some s => { s with dirty := true }
    | none => (⟨true, false, false, false⟩ : BlkTrack)
  ({ df with blockStates := insertA df.blockStates ptr tr }, needsCaching,
    isSyncing)

/-- Modelled from the spec (§4.2): `blockNeedsCopy(ptr)` is true iff the
block is currently syncing. -/
def blockNeedsCopy (st : FBOState) (file : FilePath) (ptr : BlockPointer) :
    Bool :=
  match lookupA st.dirtyFiles file.tailPtr with
  | none => false
  | some df =>
    match lookupA df.blockStates ptr with
    | none => false
    | some s => s.syncing

/-- Modelled from the spec (§4.2): `updateNotYetSyncingBytes` adjusts
the tracker ledger and emits the same delta to the dirty block cache's
unsynced-bytes counter. -/
def dfUpdateNotYetSyncingBytes (st : FBOState) (file : FilePath) (delta : Int) :
    FBOState :=
  let p := getOrCreateDirtyFile st file
  let st := putDirtyFile p.1 file
    { p.2 with notYetSyncingBytes := p.2.notYetSyncingBytes + delta }
  { st with unsyncedBytes := st.unsyncedBytes + delta }

/-- Modelled from the spec (§4.2): `addDeferredNewBytes`. -/
def dfAddDeferredNewBytes (st : FBOState) (file : FilePath) (n : Int) :
    FBOState :=
  let p := getOrCreateDirtyFile st file
  putDirtyFile p.1 file
    { p.2 with deferredNewBytes := p.2.deferredNewBytes + n }

/-- Modelled from the spec (§4.2): `resetSyncingBlocksToDirty` reverts
every syncing block to dirty so that a retried sync re-uploads it. -/
def dfResetSyncingBlocksToDirty (df : DirtyFile) : DirtyFile :=
  { df with blockStates := df.blockStates.map (fun e =>
      if e.2.syncing then (e.1, { e.2 with syncing := false, dirty := true })
      else e) }

/-- Modelled from the spec (§4.2): `setBlockOrphaned(ptr, bool)`;
un-orphaning returns the block to its syncing state. -/
def dfSetBlockOrphaned (df : DirtyFile) (ptr : BlockPointer) (orphaned : Bool) :
    DirtyFile :=
  match lookupA df.blockStates ptr with
  | none => df
  | some s =>
    { df with blockStates := (insertA df.blockStates ptr
        { s with orphaned := orphaned }) }

def dfIsBlockDirty (df : DirtyFile) (ptr : BlockPointer) : Bool :=
  match lookupA df.blockStates ptr with
  | none => false
  | some s => s.dirty

def dfIsBlockSyncing (df : DirtyFile) (ptr : BlockPointer) : Bool :=
  match lookupA df.blockStates ptr with
  | none => false
  | some s => s.syncing

/-- Modelled from the spec (§4.2): `finishSync` asserts that every
tracked block has reached Synced or Orphaned and then the tracker is
dropped by the caller. -/
def dfFinishSync (df : DirtyFile) : Option KbfsError :=
  if df.blockStates.all (fun e => e.2.synced ∨ e.2.orphaned) then none
  else some .finishSyncDirty

/-- Modelled from the spec (§4.2): `notifyErrListeners` delivers the
error to every waiting listener. -/
def dfNotifyErrListeners (st : FBOState) (ptr : BlockPointer) (e : KbfsError) :
    FBOState :=
  match lookupA st.dirtyFiles ptr with
  | none => st
  | some df =>
    { st with
      dirtyFiles := insertA st.dirtyFiles ptr { df with errListeners := [] }
      notifications := st.notifications ++ df.errListeners.map (fun c => (c, e)) }

/-- `cacheBlockIfNotYetDirtyLocked`.  In Go the `Put` is performed only
when the tracker did not yet know the pointer; when it is skipped, the
mutated block normally *aliases* the existing cache entry (the copy in
`getFileBlockLocked` is only taken for clean or syncing blocks), so the
cache still ends up holding the new value.  `aliased` records whether
the caller's block was obtained without a copy, so that the pure model
updates the entry exactly when the Go cache holds the new value. -/
def cacheBlockIfNotYetDirty (st : FBOState) (ptr : BlockPointer)
    (file : FilePath) (block : FileBlock) (aliased : Bool) : FBOState :=
  let p := getOrCreateDirtyFile st file
  let q := dfSetBlockDirty p.2 ptr
  let st := putDirtyFile p.1 file q.1
  let st := if q.2.1 ∨ aliased then
      { st with dirtyBcache := insertA st.dirtyBcache ptr block }
    else st
  if q.2.2 then { st with doDeferWrite := true } else st

/-- Write the evolving top block through to the dirty cache when it
aliases the cache entry (Go mutates the shared object in place). -/
def storeTop (st : FBOState) (file : FilePath) (top : FileBlock)
    (topAliased : Bool) : FBOState :=
  if topAliased then
    { st with dirtyBcache := insertA st.dirtyBcache file.tailPtr top }
  else st

/-! ### Directory entries and sync info -/

/-- `getDirtyParentAndEntryLocked` reduced to the entry lookup: read the
parent directory block, apply the `deCache` overlay
(`updateWithDirtyEntriesLocked`), and look up the file's name. -/
def getDirtyEntry (st : FBOState) (file : FilePath) :
    Except KbfsError DirEntry :=
  if ¬ file.valid then .error .invalidPath
  else
    match lookupA st.dirStore file.parentPtr with
    | none => .error .noSuchBlock
    | some children =>
      match lookupA children file.name with
      | none => .error .noSuchName
      | some de => .ok ((lookupA st.deCache de.ref).getD de)

/-- `getOrCreateSyncInfoLocked`: look up or create the `syncInfo` for
the entry's ref; the result is addressed by its `unrefCache` key (Go's
shared `*syncInfo`). -/
def getOrCreateSyncInfo (st : FBOState) (de : DirEntry) : FBOState × BlockRef :=
  match lookupA st.unrefCache de.ref with
  | some _ => (st, de.ref)
  | none =>
    ({ st with unrefCache := (insertA st.unrefCache de.ref
        ⟨de.info, ⟨[], []⟩, [], none, 0, 0⟩) }, de.ref)

def updateSyncInfo (st : FBOState) (ref : BlockRef) (f : SyncInfo → SyncInfo) :
    FBOState :=
  { st with unrefCache := updateA st.unrefCache ref f }

/-! ### `getFileBlockAtOffsetLocked` -/

inductive FindIdxRes
  | panic
  | completed
  | found (i : Nat)
deriving DecidableEq, Repr

/-- The index-selection loop inside `getFileBlockAtOffsetLocked`: find
the greatest `IPtrs[i].Off ≤ off`, breaking at the first equal or
greater offset; `panic` is the `i = 0 ∧ Off > off` case, where Go would
index `IPtrs[-1]`. -/
def findIdxLoop (off : Int) : Nat → List IndirectFilePtr → FindIdxRes
  | _, [] => .completed
  | i, p :: rest =>
    if p.off = off then .found i
    else if p.off > off then (if i = 0 then .panic else .found (i - 1))
    else findIdxLoop off (i + 1) rest

/-- `nextIndex` selection: defaults to the last index when the loop
completes without a break; an empty `IPtrs` would also make Go index
out of bounds. -/
def findIdx (iptrs : List IndirectFilePtr) (off : Int) : Option Nat :=
  match iptrs with
  | [] => none
  | _ :: _ =>
    match findIdxLoop off 0 iptrs with
    | .panic => none
    | .completed => some (iptrs.length - 1)
    | .found i => some i

/-- The result of `getFileBlockAtOffsetLocked`: `(ptr, parentBlock,
indexInParent, block, nextBlockStartOff, startOff)`.  The parent block
(when present) is the caller's evolving top block, so only its
existence and the index are returned. -/
structure FindRes where
  ptr : BlockPointer
  hasParent : Bool
  indexInParent : Nat
  block : FileBlock
  nextBlockOff : Int
  startOff : Int
deriving DecidableEq, Repr

/-- The descent loop of `getFileBlockAtOffsetLocked` (fuel-bounded; the
data in this tree only ever has one level of indirection, so two units
of fuel suffice).  `nextBlockOff` is only updated at a level whose
chosen index is not the last one, as in the source. -/
def findLoop (file : FilePath) (off : Int) :
    Nat → FBOState → BlockPointer → FileBlock → Int → Int → Bool → Nat →
    Except KbfsError (FBOState × FindRes)
  | 0, _, _, _, _, _, _, _ => .error .outOfFuel
  | fuel + 1, st, ptr, block, nextBlockOff, startOff, hasParent, idx =>
    if block.isInd then
      match findIdx block.iptrs off with
      | none => .error .indexPanic
      | some nextIndex =>
        match block.iptrs.get? nextIndex with
        | none => .error .indexPanic
        | some nextPtr =>
          let newNext := if nextIndex ≠ block.iptrs.length - 1 then
              match block.iptrs.get? (nextIndex + 1) with
              | some q => q.off
              | none => nextBlockOff
            else nextBlockOff
          match getFileBlockL st nextPtr.info.ptr with
          | .error e => .error e
          | .ok (st', child) =>
            findLoop file off fuel st' nextPtr.info.ptr child newNext
              nextPtr.off true nextIndex
    else
      .ok (st, ⟨ptr, hasParent, idx, block, nextBlockOff, startOff⟩)

def getFileBlockAtOffset (st : FBOState) (file : FilePath) (topBlock : FileBlock)
    (off : Int) (fuel : Nat) : Except KbfsError (FBOState × FindRes) :=
  findLoop file off fuel st file.tailPtr topBlock (-1) 0 false 0

/-! ### The block splitter -/

/-- Modelled from the spec (§6, §4.4): the simple splitter's
`CopyUntilSplit(block, lastInFile, src, destOff)` writes `src` into the
block's contents at `destOff`, growing the block only up to the
splitter's boundary `maxB`, and returns the number of bytes copied.
Bytes of the block beyond the written range are preserved; a gap
between the old length and `destOff` is zero-filled. -/
def copyUntilSplit (maxB : Nat) (block : FileBlock) (lastInFile : Bool)
    (src : List Nat) (destOff : Int) : FileBlock × Int :=
  let o := destOff.toNat
  let toCopy := min src.length (maxB - o)
  let pre := (block.contents.take o) ++
    List.replicate (o - block.contents.length) 0
  let contents := pre ++ src.take toCopy ++ block.contents.drop (o + toCopy)
  if toCopy = 0 then (block, 0)
  else ({ block with contents := contents }, Int.ofNat toCopy)

/-! ### `createIndirectBlockLocked` and `newRightBlockLocked` -/

/-- A fresh temporary block ID from the supply
(`Crypto.MakeTemporaryBlockID`); temporary pointers carry the zero ref
nonce. -/
def freshPtr (st : FBOState) : FBOState × BlockPointer :=
  ({ st with nextBlockId := st.nextBlockId + 1 }, ⟨st.nextBlockId, 0⟩)

/-- `createIndirectBlockLocked`: build a new indirect top block whose
single child carries a fresh temporary ID (and `EncodedSize` 0, offset
0), mark the old tail ID not-dirty in the tracker so the new top is
treated as newly dirtied, and cache the new top under the file's tail
pointer. -/
def createIndirectBlock (st : FBOState) (file : FilePath) :
    FBOState × FileBlock :=
  let p := freshPtr st
  let fblock : FileBlock := ⟨true, [], [⟨⟨p.2, 0⟩, 0, false⟩]⟩
  let q := getOrCreateDirtyFile p.1 file
  let st := putDirtyFile q.1 file
    { q.2 with blockStates := eraseA q.2.blockStates file.tailPtr }
  let st := cacheBlockIfNotYetDirty st file.tailPtr file fblock false
  (st, fblock)

/-- `newRightBlockLocked`: append a pointer to a fresh empty block at
offset `off` to the parent's `IPtrs` and dirty both the new block and
the parent.  Returns the updated parent and the appended entry. -/
def newRightBlock (st : FBOState) (file : FilePath) (pblock : FileBlock)
    (off : Int) (topAliased : Bool) :
    FBOState × FileBlock × IndirectFilePtr :=
  let p := freshPtr st
  let rblock : FileBlock := ⟨false, [], []⟩
  let newIptr : IndirectFilePtr := ⟨⟨p.2, 0⟩, off, false⟩
  let pblock := { pblock with iptrs := pblock.iptrs ++ [newIptr] }
  let st := cacheBlockIfNotYetDirty p.1 p.2 file rblock false
  let st := cacheBlockIfNotYetDirty st file.tailPtr file pblock topAliased
  (st, pblock, newIptr)

/-! ### `writeDataLocked` -/

/-- Zero the `EncodedSize` of the indirect pointer at `i`. -/
def zeroEncodedSizeAt (b : FileBlock) (i : Nat) : FileBlock :=
  match b.iptrs.get? i with
  | none => b
  | some ip =>
    { b with iptrs := (b.iptrs.set i
        { ip with info := { ip.info with encodedSize := 0 } }) }

/-- The loop state threaded through `writeDataLocked`'s main loop:
folder state, the local top block and whether it aliases its dirty
cache entry, the local `DirEntry`, copied-byte count, dirtied pointers,
and newly-dirtied child bytes. -/
structure WriteLoopSt where
  st : FBOState
  top : FileBlock
  topAliased : Bool
  de : DirEntry
  nCopied : Int
  dirtyPtrs : List BlockPointer
  nDCB : Int
deriving DecidableEq, Repr

/-- One canonical iteration plus recursion of the `for nCopied < n`
loop of `writeDataLocked` (fuel-bounded; every iteration of the Go loop
makes progress or errors out). -/
def writeLoop (cfg : Config) (file : FilePath) (data : List Nat) (off : Int)
    (siRef : BlockRef) :
    Nat → WriteLoopSt → WriteLoopSt × Option KbfsError
  | 0, w =>
    if w.nCopied < (data.length : Int) then (w, some .outOfFuel) else (w, none)
  | fuel + 1, w =>
    if w.nCopied < (data.length : Int) then
      match getFileBlockAtOffset w.st file w.top (off + w.nCopied) (fuel + 2) with
      | .error e => (w, some e)
      | .ok (st, res) =>
        let ptr := res.ptr
        let block := res.block
        let oldLen := block.contents.length
        let wasDirty := dirtyIsDirty st ptr
        let aliased := wasDirty ∧ ¬ blockNeedsCopy st file ptr
        let maxd : Int :=
          if res.nextBlockOff > 0 ∧ res.nextBlockOff - off < (data.length : Int)
          then res.nextBlockOff - off else (data.length : Int)
        if maxd < w.nCopied then (w, some .indexPanic)
        else
          let seg := (data.drop w.nCopied.toNat).take (maxd - w.nCopied).toNat
          let c := copyUntilSplit cfg.maxBlockSize block (res.nextBlockOff < 0)
            seg (off + w.nCopied - res.startOff)
          let block := c.1
          let nCopied := w.nCopied + c.2
          -- grow the tree if more blocks are needed
          let grown :
              FBOState × FileBlock × Bool × BlockPointer :=
            if nCopied < (data.length : Int) ∧ res.nextBlockOff < 0 then
              let conv :
                  FBOState × FileBlock × Bool × BlockPointer :=
                if ptr = file.tailPtr then
                  let ci := createIndirectBlock st file
                  (ci.1, ci.2, true,
                    (ci.2.iptrs.head?.elim ptr (fun ip => ip.info.ptr)))
                else (st, w.top, w.topAliased, ptr)
              let nr := newRightBlock conv.1 file conv.2.1
                (res.startOff + (block.contents.length : Int)) conv.2.2.1
              (nr.1, nr.2.1, true, conv.2.2.2)
            else if nCopied < (data.length : Int) ∧
                off + nCopied < res.nextBlockOff then
              let nr := newRightBlock st file w.top
                (res.startOff + (block.contents.length : Int)) w.topAliased
              -- shift the new entry into place right after the found index
              let init := nr.2.1.iptrs.dropLast
              let top := { nr.2.1 with iptrs := (init.take (res.indexInParent + 1)
                  ++ [nr.2.2] ++ init.drop (res.indexInParent + 1)) }
              let st := storeTop nr.1 file top true
              (st, top, true, ptr)
            else (st, w.top, w.topAliased, ptr)
          let st := grown.1
          let top := grown.2.1
          let topAliased := grown.2.2.1
          let ptr := grown.2.2.2
          -- only in the last block does the file size grow
          let deSt : DirEntry × FBOState :=
            if oldLen ≠ block.contents.length ∧ res.nextBlockOff < 0 then
              let de := { w.de with
                info := { w.de.info with encodedSize := 0 }
                size := w.de.size + (block.contents.length - oldLen) }
              (de, { st with deCache := insertA st.deCache file.tailPtr.ref de })
            else (w.de, st)
          let de := deSt.1
          let st := deSt.2
          let nDCB := w.nDCB + (block.contents.length : Int) -
            (if wasDirty then (oldLen : Int) else 0)
          -- unref the found child's old info and zero its EncodedSize
          let parSt : FBOState × FileBlock :=
            if res.hasParent then
              let info := ((top.iptrs.get? res.indexInParent).map
                (fun ip => ip.info)).getD ⟨⟨0, 0⟩, 0⟩
              let st := updateSyncInfo st siRef
                (fun si => { si with unrefs := si.unrefs ++ [info] })
              let top := zeroEncodedSizeAt top res.indexInParent
              (storeTop st file top topAliased, top)
            else (st, top)
          let st := cacheBlockIfNotYetDirty parSt.1 ptr file block aliased
          writeLoop cfg file data off siRef fuel
            ⟨st, parSt.2, topAliased, de, nCopied,
              w.dirtyPtrs ++ [ptr], nDCB⟩
    else (w, none)

/-- `writeDataLocked(file, data, off)`: returns the latest write range,
the pointers dirtied by this write, and the newly-dirtied child bytes.
The Go `defer` that posts `newlyDirtiedChildBytes` to the tracker (and
thence the global unsynced counter) runs on every exit after the
tracker is obtained, and is applied likewise here; the `ShouldForceSync`
signal is an asynchronous notification and is not modelled. -/
def writeDataLocked (cfg : Config) (fuel : Nat) (st0 : FBOState)
    (file : FilePath) (data : List Nat) (off : Int) :
    FBOState × Except KbfsError (WriteRange × List BlockPointer × Int) :=
  if (cfg.maxFileBytes : Int) < off + (data.length : Int) then
    (st0, .error .fileTooBig)
  else if ¬ cfg.isWriter then (st0, .error .writeAccess)
  else if ¬ file.valid then (st0, .error .invalidPath)
  else
    match getFileBlockL st0 file.tailPtr with
    | .error e => (st0, .error e)
    | .ok (st1, fblock) =>
      let st2 := (getOrCreateDirtyFile st1 file).1
      match getDirtyEntry st2 file with
      | .error e => (dfUpdateNotYetSyncingBytes st2 file 0, .error e)
      | .ok de =>
        let oldSize := de.size
        let si := getOrCreateSyncInfo st2 de
        let topAliased := dirtyIsDirty si.1 file.tailPtr ∧
          ¬ blockNeedsCopy si.1 file file.tailPtr
        let r := writeLoop cfg file data off si.2 fuel
          ⟨si.1, fblock, topAliased, de, 0, [], 0⟩
        match r.2 with
        | some e => (dfUpdateNotYetSyncingBytes r.1.st file r.1.nDCB, .error e)
        | none =>
          let w := r.1
          let finSt : FBOState × List BlockPointer :=
            if w.top.isInd then
              let st := cacheBlockIfNotYetDirty w.st file.tailPtr file w.top
                w.topAliased
              let st := if st.doDeferWrite ∧ oldSize < w.de.size then
                  dfAddDeferredNewBytes st file ((w.de.size : Int) - (oldSize : Int))
                else st
              (st, w.dirtyPtrs ++ [file.tailPtr])
            else (w.st, w.dirtyPtrs)
          let lw : WriteRange := ⟨off.toNat, data.length⟩
          let st := updateSyncInfo finSt.1 si.2
            (fun s => { s with op := { s.op with writes := s.op.writes ++ [lw] } })
          (dfUpdateNotYetSyncingBytes st file w.nDCB, .ok (lw, finSt.2, w.nDCB))

/-! ### `truncateLocked` and its extend path -/

/-- `truncateExtendCutoffPoint`: growth beyond this many bytes extends
the file with a hole. -/
def truncateExtendCutoffPoint : Int := 128 * 1024

/-- Mark the indirect pointer at `i` as preceding a hole. -/
def setHolesAt (b : FileBlock) (i : Nat) : FileBlock :=
  match b.iptrs.get? i with
  | none => b
  | some ip => { b with iptrs := b.iptrs.set i { ip with holes := true } }

/-- The indirect-conversion step of `truncateExtendLocked`: when the top
block is still direct, replace it with a fresh indirect top whose first
pointer (marked `Holes`) refers to the old data, and dirty the old data
under the child pointer.  Returns the folder state, the top block, the
top-aliasing flag and the pointers dirtied so far. -/
def truncExtConv (st1 : FBOState) (file : FilePath) (fblock : FileBlock) :
    FBOState × FileBlock × Bool × List BlockPointer :=
  let topAliased := dirtyIsDirty st1 file.tailPtr ∧
    ¬ blockNeedsCopy st1 file file.tailPtr
  if ¬ fblock.isInd then
    let old := fblock
    let ci := createIndirectBlock st1 file
    let top := setHolesAt ci.2 0
    let st := storeTop ci.1 file top true
    let childPtr := top.iptrs.head?.elim file.tailPtr
      (fun ip => ip.info.ptr)
    let st := cacheBlockIfNotYetDirty st childPtr file old false
    (st, top, true, [childPtr])
  else (st1, fblock, topAliased, [])

/-- The tail of `truncateExtendLocked` after the conversion step: add a
fresh right block at offset `size`, mark all indirect pointers
`Holes = true`, cache the updated directory entry, and record the
`(size, 0)` write in the sync op. -/
def truncExtFinish (conv : FBOState × FileBlock × Bool × List BlockPointer)
    (file : FilePath) (size : Nat) :
    FBOState × Except KbfsError (WriteRange × List BlockPointer) :=
  let nr := newRightBlock conv.1 file conv.2.1 (Int.ofNat size) conv.2.2.1
  let dirtyPtrs := conv.2.2.2 ++ [nr.2.2.info.ptr]
  match getDirtyEntry nr.1 file with
  | .error e => (nr.1, .error e)
  | .ok de =>
    let si := getOrCreateSyncInfo nr.1 de
    let de := { de with
      info := { de.info with encodedSize := 0 }
      size := size }
    let st := { si.1 with deCache := insertA si.1.deCache file.tailPtr.ref de }
    let top := { nr.2.1 with iptrs := (nr.2.1.iptrs.map
        (fun ip => { ip with holes := true })) }
    let st := storeTop st file top true
    let st := cacheBlockIfNotYetDirty st file.tailPtr file top true
    let dirtyPtrs := dirtyPtrs ++ [file.tailPtr]
    let lw : WriteRange := ⟨size, 0⟩
    let st := updateSyncInfo st si.2
      (fun s => { s with op := { s.op with writes := s.op.writes ++ [lw] } })
    (st, .ok (lw, dirtyPtrs))

/-- `truncateExtendLocked`: extend the file to `size` by a hole — make
the top block indirect if needed, add a fresh right block at offset
`size`, mark every indirect pointer `Holes = true`, and update the
cached directory entry — without materialising any zero bytes. -/
def truncateExtendLocked (cfg : Config) (st0 : FBOState) (file : FilePath)
    (size : Nat) :
    FBOState × Except KbfsError (WriteRange × List BlockPointer) :=
  if cfg.maxFileBytes < size then (st0, .error .fileTooBig)
  else if ¬ cfg.isWriter then (st0, .error .writeAccess)
  else if ¬ file.valid then (st0, .error .invalidPath)
  else
    match getFileBlockL st0 file.tailPtr with
    | .error e => (st0, .error e)
    | .ok (st1, fblock) =>
      truncExtFinish (truncExtConv st1 file fblock) file size

/-- `truncateLocked(file, size)`: decide between extending by a hole
(growth beyond `truncateExtendCutoffPoint`), zero-fill growth through
`writeDataLocked`, the same-size no-op, and shrinking.  (The Go code
does not check the error of its `getFileBlockAtOffsetLocked` call and
would dereference a nil block; the model propagates the error.) -/
def truncateLocked (cfg : Config) (fuel : Nat) (st0 : FBOState)
    (file : FilePath) (size : Nat) :
    FBOState × Except KbfsError (Option WriteRange × List BlockPointer × Int) :=
  if ¬ cfg.isWriter then (st0, .error .writeAccess)
  else if ¬ file.valid then (st0, .error .invalidPath)
  else
    match getFileBlockL st0 file.tailPtr with
    | .error e => (st0, .error e)
    | .ok (st1, fblock) =>
      let iSize : Int := size
      match getFileBlockAtOffset st1 file fblock iSize fuel with
      | .error e => (st1, .error e)
      | .ok (st2, res) =>
        let currLen : Int := res.startOff + (res.block.contents.length : Int)
        if currLen + truncateExtendCutoffPoint < iSize then
          match truncateExtendLocked cfg st2 file size with
          | (st, .error e) => (st, .error e)
          | (st, .ok (lw, dps)) => (st, .ok (some lw, dps, 0))
        else if currLen < iSize then
          match writeDataLocked cfg fuel st2 file
              (List.replicate (iSize - currLen).toNat 0) currLen with
          | (st, .error e) => (st, .error e)
          | (st, .ok (lw, dps, n)) => (st, .ok (some lw, dps, n))
        else if currLen = iSize ∧ res.nextBlockOff < 0 then
          (st2, .ok (none, [], 0))
        else
          match getDirtyEntry st2 file with
          | .error e => (st2, .error e)
          | .ok de =>
            let ptr := res.ptr
            let oldLen := res.block.contents.length
            let wasDirty := dirtyIsDirty st2 ptr
            let aliased := wasDirty ∧ ¬ blockNeedsCopy st2 file ptr
            let topAliased := dirtyIsDirty st2 file.tailPtr ∧
              ¬ blockNeedsCopy st2 file file.tailPtr
            let block := { res.block with
              contents := res.block.contents.take (iSize - res.startOff).toNat }
            let nDCB : Int := (block.contents.length : Int) -
              (if wasDirty then (oldLen : Int) else 0)
            let st := dfUpdateNotYetSyncingBytes st2 file nDCB
            let si := getOrCreateSyncInfo st de
            let cut : FBOState × FileBlock × Bool :=
              if res.nextBlockOff > 0 then
                let dropped := fblock.iptrs.drop (res.indexInParent + 1)
                let st := updateSyncInfo si.1 si.2 (fun s =>
                  { s with unrefs := s.unrefs ++
                      dropped.map (fun ip => ip.info) })
                let top := { fblock with
                  iptrs := fblock.iptrs.take (res.indexInParent + 1) }
                let st := cacheBlockIfNotYetDirty st file.tailPtr file top
                  topAliased
                (st, top, true)
              else (si.1, fblock, topAliased)
            let afterInd : FBOState × Bool :=
              if cut.2.1.isInd then
                (cacheBlockIfNotYetDirty cut.1 file.tailPtr file cut.2.1
                  cut.2.2, true)
              else (cut.1, cut.2.2)
            let parSt : FBOState × FileBlock :=
              if res.hasParent then
                let info := ((cut.2.1.iptrs.get? res.indexInParent).map
                  (fun ip => ip.info)).getD ⟨⟨0, 0⟩, 0⟩
                let st := updateSyncInfo afterInd.1 si.2 (fun s =>
                  { s with unrefs := s.unrefs ++ [info] })
                let top := zeroEncodedSizeAt cut.2.1 res.indexInParent
                (storeTop st file top afterInd.2, top)
              else (afterInd.1, cut.2.1)
            let lw : WriteRange := ⟨size, 0⟩
            let st := updateSyncInfo parSt.1 si.2
              (fun s => { s with op := { s.op with writes := s.op.writes ++ [lw] } })
            let de := { de with
              info := { de.info with encodedSize := 0 }
              size := size }
            let st := { st with deCache := insertA st.deCache file.tailPtr.ref de }
            let st := cacheBlockIfNotYetDirty st ptr file block aliased
            (st, .ok (some lw, [], nDCB))

/-! ### The `Write` and `Truncate` wrappers -/

/-- The body of `Write` under `blockLock`: resolve the path, write the
data, and when `doDeferWrite` was set, enqueue the dirty pointers for
deletion and a replay closure; `doDeferWrite` is reset on exit. -/
def writeInner (cfg : Config) (fuel : Nat) (st : FBOState) (file : FilePath)
    (data : List Nat) (off : Int) : FBOState × Option KbfsError :=
  if ¬ file.valid then ({ st with doDeferWrite := false }, some .invalidPath)
  else
    match writeDataLocked cfg fuel st file data off with
    | (st, .error e) => ({ st with doDeferWrite := false }, some e)
    | (st, .ok (_, dirtyPtrs, nDCB)) =>
      let st :=
        if st.doDeferWrite then
          { st with
            deferredDirtyDeletes := st.deferredDirtyDeletes ++ dirtyPtrs
            deferredWrites := st.deferredWrites ++
              [DeferredOp.write file data off nDCB] }
        else st
      ({ st with doDeferWrite := false }, none)

/-- `Write`: admission control charges `len(data)` to the global
unsynced counter (`RequestPermissionToDirty`, modelled from the spec),
and the deferred `UpdateUnsyncedBytes(-len(data))` refunds it on every
exit.  The blocking waits are synchronisation and are not modelled. -/
def Write (cfg : Config) (fuel : Nat) (st : FBOState) (file : FilePath)
    (data : List Nat) (off : Int) : FBOState × Option KbfsError :=
  let st := { st with unsyncedBytes := st.unsyncedBytes + data.length }
  let r := writeInner cfg fuel st file data off
  ({ r.1 with unsyncedBytes := r.1.unsyncedBytes - data.length }, r.2)

/-- The body of `Truncate` under `blockLock` (mirrors `writeInner`). -/
def truncateInner (cfg : Config) (fuel : Nat) (st : FBOState)
    (file : FilePath) (size : Nat) : FBOState × Option KbfsError :=
  if ¬ file.valid then ({ st with doDeferWrite := false }, some .invalidPath)
  else
    match truncateLocked cfg fuel st file size with
    | (st, .error e) => ({ st with doDeferWrite := false }, some e)
    | (st, .ok (_, dirtyPtrs, nDCB)) =>
      let st :=
        if st.doDeferWrite then
          { st with
            deferredDirtyDeletes := st.deferredDirtyDeletes ++ dirtyPtrs
            deferredWrites := st.deferredWrites ++
              [DeferredOp.truncate file size nDCB] }
        else st
      ({ st with doDeferWrite := false }, none)

/-- `Truncate`: admission control charges `size` bytes (the whole
remaining file is assumed dirty), refunded on every exit. -/
def Truncate (cfg : Config) (fuel : Nat) (st : FBOState) (file : FilePath)
    (size : Nat) : FBOState × Option KbfsError :=
  let st := { st with unsyncedBytes := st.unsyncedBytes + size }
  let r := truncateInner cfg fuel st file size
  ({ r.1 with unsyncedBytes := r.1.unsyncedBytes - size }, r.2)

/-! ### `Read`

The read path holds the block lock shared and mutates no folder state
(a fetched block's transient insertion into the clean cache does not
change any value the read returns), so it is embedded statelessly; the
block fetch is an oracle taking the effective context deadline. -/

/-- The amount the internal read deadline is smaller than the ambient
one (`readTimeoutSmallerBy = 2s`, in seconds). -/
def readTimeoutSmallerBy : Int := 2

/-- The context installed by `Read`: when the ambient deadline is more
than `readTimeoutSmallerBy` away, a timeout of `deadline - now -
readTimeoutSmallerBy` is installed, giving the internal deadline
`deadline - readTimeoutSmallerBy`. -/
def readEffectiveDeadline (now : Int) (deadline : Option Int) : Option Int :=
  match deadline with
  | none => none
  | some d =>
    if d - now - readTimeoutSmallerBy > 0 then some (d - readTimeoutSmallerBy)
    else some d

def getFileBlockRead (st : FBOState)
    (fetch : BlockPointer → Except KbfsError FileBlock)
    (ptr : BlockPointer) : Except KbfsError FileBlock :=
  match lookupA st.dirtyBcache ptr with
  | some b => .ok b
  | none =>
    match cleanGet st ptr with
    | some b => .ok b
    | none => fetch ptr

/-- The read-mode descent of `getFileBlockAtOffsetLocked`. -/
def findLoopR (st : FBOState)
    (fetch : BlockPointer → Except KbfsError FileBlock) (off : Int) :
    Nat → BlockPointer → FileBlock → Int → Int → Bool → Nat →
    Except KbfsError FindRes
  | 0, _, _, _, _, _, _ => .error .outOfFuel
  | fuel + 1, ptr, block, nextBlockOff, startOff, hasParent, idx =>
    if block.isInd then
      match findIdx block.iptrs off with
      | none => .error .indexPanic
      | some nextIndex =>
        match block.iptrs.get? nextIndex with
        | none => .error .indexPanic
        | some nextPtr =>
          let newNext := if nextIndex ≠ block.iptrs.length - 1 then
              match block.iptrs.get? (nextIndex + 1) with
              | some q => q.off
              | none => nextBlockOff
            else nextBlockOff
          match getFileBlockRead st fetch nextPtr.info.ptr with
          | .error e => .error e
          | .ok child =>
            findLoopR st fetch off fuel nextPtr.info.ptr child newNext
              nextPtr.off true nextIndex
    else
      .ok ⟨ptr, hasParent, idx, block, nextBlockOff, startOff⟩

def getFileBlockAtOffsetR (st : FBOState)
    (fetch : BlockPointer → Except KbfsError FileBlock) (file : FilePath)
    (topBlock : FileBlock) (off : Int) : Except KbfsError FindRes :=
  findLoopR st fetch off 64 file.tailPtr topBlock (-1) 0 false 0

/-- Write `count` zero bytes into `dest` starting at `idx` (clamped to
the buffer, as Go's indexed writes stay in bounds). -/
def zeroFillAt (dest : List Nat) (idx count : Nat) : List Nat :=
  dest.take idx ++ List.replicate (min count (dest.length - idx)) 0 ++
    dest.drop (idx + count)

/-- Go's `copy(dest[idx:], src)`. -/
def copySegAt (dest : List Nat) (idx : Nat) (src : List Nat) : List Nat :=
  let copied := min src.length (dest.length - idx)
  dest.take idx ++ src.take copied ++ dest.drop (idx + copied)

/-- The `for nRead < n` loop of `Read`: copy from the leaf covering the
current offset; zero-fill when the offset sits in a hole before a
successor block; return a short read on a deadline-expired fetch once
bytes have been delivered. -/
def readLoop (st : FBOState)
    (fetch : BlockPointer → Except KbfsError FileBlock) (file : FilePath)
    (fblock : FileBlock) (n off : Int) :
    Nat → List Nat → Int → Int × List Nat × Option KbfsError
  | 0, dest, nRead => (nRead, dest, some .outOfFuel)
  | fuel + 1, dest, nRead =>
    if nRead < n then
      let nextByte := nRead + off
      let toRead := n - nRead
      match getFileBlockAtOffsetR st fetch file fblock nextByte with
      | .error e =>
        if e = .deadlineExceeded ∧ nRead > 0 then (nRead, dest, none)
        else (0, dest, some e)
      | .ok res =>
        let blockLen : Int := res.block.contents.length
        let lastByteInBlock := res.startOff + blockLen
        if lastByteInBlock ≤ nextByte then
          if res.nextBlockOff > 0 then
            let fill0 := res.nextBlockOff - nextByte
            let fill := if toRead < fill0 then toRead else fill0
            if fill ≤ 0 then (nRead, dest, some .badSplit)
            else
              readLoop st fetch file fblock n off fuel
                (zeroFillAt dest nRead.toNat fill.toNat) (nRead + fill)
          else (nRead, dest, none)
        else
          let toRead := if lastByteInBlock - nextByte < toRead
            then lastByteInBlock - nextByte else toRead
          let firstByte := nextByte - res.startOff
          let dest := copySegAt dest nRead.toNat
            ((res.block.contents.drop firstByte.toNat).take toRead.toNat)
          readLoop st fetch file fblock n off fuel dest (nRead + toRead)
    else (n, dest, none)

/-- `Read(file, dest, off)`: fetch the top block under the ambient
context, install the shortened internal deadline, and run the read
loop (each iteration advances by at least one byte, so `len(dest) + 1`
fuel is exact). -/
def Read (st : FBOState)
    (fetch : Option Int → BlockPointer → Except KbfsError FileBlock)
    (now : Int) (deadline : Option Int) (file : FilePath) (dest : List Nat)
    (off : Int) : Int × List Nat × Option KbfsError :=
  match getFileBlockRead st (fetch deadline) file.tailPtr with
  | .error e => (0, dest, some e)
  | .ok fblock =>
    let ictx := readEffectiveDeadline now deadline
    readLoop st (fetch ictx) file fblock (dest.length : Int) off
      (dest.length + 1) dest 0

/-! ### Sync cleanup and finish -/

/-- `fileSyncState`: the rollback data captured by `StartSync`.
`fblockAt` names the dirty-cache location of the shared top block (the
Go `*FileBlock` member, written through on rollback); `siRef` is the
`unrefCache` key at which the live `syncInfo` object sits. -/
structure FileSyncState where
  fblockAt : Option BlockPointer
  savedFblock : FileBlock
  redirtyOnRecoverableError : List (BlockPointer × BlockPointer)
  siRef : Option BlockRef
  savedSi : SyncInfo
  oldFileBlockPtrs : List BlockPointer
  newIndirectFileBlockPtrs : List BlockPointer
deriving DecidableEq, Repr

/-- `revertSyncInfoAfterRecoverableError(blocksToRemove, si, savedSi)`.
`*si = *savedSi` copies `savedSi`'s fields — including the `bps`
*pointer* — into the live `syncInfo`, after which `si.bps` and
`savedSi.bps` alias the same `blockPutState`; the subsequent
`si.bps.blockStates = nil` therefore also clears the list that the
keep-the-good-blocks loop then ranges over. -/
def revertSyncInfoAfterRecoverableError (st : FBOState)
    (blocksToRemove : List BlockPointer) (siRef : BlockRef)
    (savedSi : SyncInfo) : FBOState :=
  let st := { st with unrefCache := insertA st.unrefCache siRef savedSi }
  match savedSi.bps with
  | none => st
  | some r =>
    let st := { st with bpsStore := (updateA st.bpsStore r
        (fun b => { b with blockStates := [] })) }
    let saved := ((lookupA st.bpsStore r).map (fun b => b.blockStates)).getD []
    let keep := saved.filter (fun bs => ¬ blocksToRemove.contains bs.blockPtr)
    { st with bpsStore := (updateA st.bpsStore r
        (fun b => { b with blockStates := b.blockStates ++ keep })) }

/-- `fixChildBlocksAfterRecoverableError`: un-orphan the old pointers,
zero the `EncodedSize` of every indirect pointer renamed by the failed
sync, re-dirty each renamed child from its permanent clean-cache copy,
and delete the old dirty pointer. -/
def fixChildBlocksAfterRecoverableError (st : FBOState) (file : FilePath)
    (redirty : List (BlockPointer × BlockPointer)) : FBOState :=
  let st := match lookupA st.dirtyFiles file.tailPtr with
    | none => st
    | some df =>
      putDirtyFile st file
        (redirty.foldl (fun df e => dfSetBlockOrphaned df e.2 false) df)
  match lookupA st.dirtyFiles file.tailPtr with
  | none => st
  | some df =>
    if ¬ (dfIsBlockDirty df file.tailPtr ∧ dfIsBlockSyncing df file.tailPtr)
    then st
    else
      match lookupA st.dirtyBcache file.tailPtr with
      | none => st
      | some topBlock =>
        (redirty.foldl (fun acc e =>
          let found := acc.2.iptrs.any (fun ip => ip.info.ptr = e.1)
          let top := { acc.2 with iptrs := (acc.2.iptrs.map (fun ip =>
              if ip.info.ptr = e.1 then
                { ip with info := { ip.info with encodedSize := 0 } }
              else ip)) }
          let st := { acc.1 with
            dirtyBcache := insertA acc.1.dirtyBcache file.tailPtr top }
          if ¬ found then (st, top)
          else
            match cleanGet st e.1 with
            | none => (st, top)
            | some b =>
              let st := cacheBlockIfNotYetDirty st e.1 file b false
              (dirtyDelete st e.2, top)) (st, topBlock)).1

/-- `CleanupSyncState(file, blocksToRemove, result, err)`. -/
def CleanupSyncState (st : FBOState) (file : FilePath)
    (blocksToRemove : List BlockPointer) (result : FileSyncState)
    (err : Option KbfsError) : FBOState :=
  match err with
  | none => st
  | some e =>
    let st := if isRecoverableBlockError e then st
      else dfNotifyErrListeners st file.tailPtr e
    let st := match result.siRef with
      | none => st
      | some ref => updateSyncInfo st ref
          (fun si => { si with op := { si.op with updates := [] } })
    let st :=
      if isRecoverableBlockError e then
        let st := match result.siRef with
          | none => st
          | some ref =>
            revertSyncInfoAfterRecoverableError st blocksToRemove ref
              result.savedSi
        match result.fblockAt with
        | none => st
        | some tailPtr =>
          let st := { st with
            dirtyBcache := insertA st.dirtyBcache tailPtr result.savedFblock }
          fixChildBlocksAfterRecoverableError st file
            result.redirtyOnRecoverableError
      else st
    match lookupA st.dirtyFiles file.tailPtr with
    | none => st
    | some df => putDirtyFile st file (dfResetSyncingBlocksToDirty df)

/-- `clearCacheInfoLocked(file)`: drop the `deCache` and `unrefCache`
entries for the file's ref, and drop the dirty-file tracker after its
`finishSync` assertion. -/
def clearCacheInfoLocked (st : FBOState) (file : FilePath) :
    FBOState × Option KbfsError :=
  let ref := file.tailPtr.ref
  let st := { st with
    deCache := eraseA st.deCache ref
    unrefCache := eraseA st.unrefCache ref }
  match lookupA st.dirtyFiles file.tailPtr with
  | none => (st, none)
  | some df =>
    match dfFinishSync df with
    | some e => (st, some e)
    | none => ({ st with dirtyFiles := eraseA st.dirtyFiles file.tailPtr }, none)

/-- Replay of one deferred operation (the closure bodies enqueued by
`Write` and `Truncate`): refund the not-yet-syncing bytes against the
tracker of the path captured at defer time, then redo the operation on
the new path. -/
def replayDeferred (cfg : Config) (fuel : Nat) (newPath : FilePath)
    (st : FBOState) (op : DeferredOp) : FBOState × Option KbfsError :=
  match op with
  | .write origFile data off nDCB =>
    let st := dfUpdateNotYetSyncingBytes st origFile (-nDCB)
    match writeDataLocked cfg fuel st newPath data off with
    | (st, .error e) => (st, some e)
    | (st, .ok _) => (st, none)
  | .truncate origFile size nDCB =>
    let st := dfUpdateNotYetSyncingBytes st origFile (-nDCB)
    match truncateLocked cfg fuel st newPath size with
    | (st, .error e) => (st, some e)
    | (st, .ok _) => (st, none)

/-- The replay loop of `FinishSync`: run the snapshot in submission
order; the first error stops the loop and is propagated. -/
def runDeferred (cfg : Config) (fuel : Nat) (newPath : FilePath) :
    FBOState → List DeferredOp → FBOState × Option KbfsError
  | st, [] => (st, none)
  | st, op :: rest =>
    match replayDeferred cfg fuel newPath st op with
    | (st, some e) => (st, some e)
    | (st, none) => runDeferred cfg fuel newPath st rest

/-- `FinishSync(oldPath, newPath, syncState)`: returns `(stillDirty,
err)` next to the state. -/
def FinishSync (cfg : Config) (fuel : Nat) (st : FBOState)
    (oldPath newPath : FilePath) (syncState : FileSyncState) :
    FBOState × Bool × Option KbfsError :=
  let st := syncState.oldFileBlockPtrs.foldl dirtyDelete st
  let st := syncState.newIndirectFileBlockPtrs.foldl
    (fun st p => cleanDeletePermanent st p.id) st
  let deletes := st.deferredDirtyDeletes
  let writes := st.deferredWrites
  let stillDirty := ¬ st.deferredWrites.isEmpty
  let st := { st with deferredDirtyDeletes := [], deferredWrites := [] }
  let st := deletes.foldl dirtyDelete st
  match runDeferred cfg fuel newPath st writes with
  | (st, some e) => (st, true, some e)
  | (st, none) =>
    match clearCacheInfoLocked st oldPath with
    | (st, some e) => (st, true, some e)
    | (st, none) => (st, stillDirty, none)

/-! ### C2 -/

def c2tail : BlockPointer := ⟨1, 0⟩

def c2file : FilePath := ⟨⟨0, 0⟩, "f", c2tail, true⟩

def c2childA : BlockPointer := ⟨3, 0⟩

def c2childB : BlockPointer := ⟨4, 0⟩

/-- The two readied blocks recorded in the `blockPutState`; `c2ptrB`'s
upload failed recoverably. -/
def c2ptrA : BlockPointer := ⟨100, 0⟩

def c2ptrB : BlockPointer := ⟨101, 0⟩

/-- The live `syncInfo` (as mutated by the failed sync), holding
`blockPutState` 0. -/
def c2si : SyncInfo := ⟨⟨c2tail, 8⟩, ⟨[], [(c2ptrA, c2ptrB)]⟩, [], some 0, 0, 0⟩

/-- The `StartSync` deep copy of the `syncInfo`, holding the deep-copied
`blockPutState` 1. -/
def c2savedSi : SyncInfo := ⟨⟨c2tail, 8⟩, ⟨[], []⟩, [], some 1, 0, 0⟩

def c2fblock : FileBlock :=
  ⟨true, [], [⟨⟨c2ptrA, 4⟩, 0, false⟩, ⟨⟨c2ptrB, 4⟩, 10, false⟩]⟩

def c2savedFblock : FileBlock :=
  ⟨true, [], [⟨⟨c2childA, 0⟩, 0, false⟩, ⟨⟨c2childB, 0⟩, 10, false⟩]⟩

/-- The file's tracker mid-sync: the top and both children are dirty
and syncing; one blocked writer listens for errors. -/
def c2df : DirtyFile :=
  ⟨[(c2tail, ⟨true, true, false, false⟩), (c2childA, ⟨true, true, false, false⟩),
    (c2childB, ⟨true, true, false, false⟩)], 0, 0, [7]⟩

def c2st : FBOState :=
  { dirtyBcache := [(c2tail, c2fblock)]
    cleanBcache := []
    srvBlocks := []
    dirStore := []
    deCache := []
    unrefCache := [(c2tail.ref, c2si)]
    dirtyFiles := [(c2tail, c2df)]
    deferredWrites := []
    deferredDirtyDeletes := []
    doDeferWrite := false
    bpsStore := [(0, ⟨[⟨c2ptrA⟩, ⟨c2ptrB⟩]⟩), (1, ⟨[⟨c2ptrA⟩, ⟨c2ptrB⟩]⟩)]
    nextBlockId := 200
    unsyncedBytes := 0
    notifications := [] }

def c2result : FileSyncState :=
  ⟨some c2tail, c2savedFblock, [], some c2tail.ref, c2savedSi,
    [c2tail, c2childA, c2childB], []⟩

def c2out : FBOState :=
  CleanupSyncState c2st c2file [c2ptrB] c2result (some .recoverableBlock)

/-- C2.  `CleanupSyncState` with a recoverable error: the live
`syncInfo` is overwritten with the saved deep copy, the top block is
restored from `savedFblock`, every syncing block is reset to dirty, and
no error listener is notified — but the saved `blockPutState` ends up
with an *empty* `blockStates` list instead of retaining the state for
`c2ptrA` (which is not in `blocksToRemove`): after `*si = *savedSi`,
`si.bps` aliases `savedSi.bps`, so `si.bps.blockStates = nil` also
clears the list that the keep-the-good-pointers loop of
`revertSyncInfoAfterRecoverableError` then ranges over, leaving the
loop with nothing to copy.  This contradicts both the claim and the
function's own doc comment ("include all the blocks from before the
error, except for those that have encountered recoverable block errors
themselves"). -/
theorem c2_cleanup_bug :
    ((lookupA c2out.unrefCache c2tail.ref).map (fun si => si.bps) =
      some (some 1)) ∧
    ((lookupA c2out.bpsStore 1).map (fun b => b.blockStates) = some []) ∧
    (((lookupA c2out.bpsStore 1).map (fun b => b.blockStates) =
      some [⟨c2ptrA⟩]) → False) ∧
    lookupA c2out.dirtyBcache c2tail = some c2savedFblock ∧
    ((lookupA c2out.dirtyFiles c2tail).map (fun df =>
      df.blockStates.all (fun e => !e.2.syncing && e.2.dirty))) = some true ∧
    c2out.notifications = [] := by
  decide

/-! ### Field-preservation and lookup lemmas for the state primitives -/

theorem getOrCreateDirtyFile_fields (st : FBOState) (file : FilePath) :
    (getOrCreateDirtyFile st file).1.dirtyBcache = st.dirtyBcache ∧
    (getOrCreateDirtyFile st file).1.cleanBcache = st.cleanBcache ∧
    (getOrCreateDirtyFile st file).1.srvBlocks = st.srvBlocks ∧
    (getOrCreateDirtyFile st file).1.deCache = st.deCache ∧
    (getOrCreateDirtyFile st file).1.unrefCache = st.unrefCache ∧
    (getOrCreateDirtyFile st file).1.nextBlockId = st.nextBlockId ∧
    (getOrCreateDirtyFile st file).1.deferredWrites = st.deferredWrites ∧
    (getOrCreateDirtyFile st file).1.deferredDirtyDeletes =
      st.deferredDirtyDeletes ∧
    (getOrCreateDirtyFile st file).1.unsyncedBytes = st.unsyncedBytes ∧
    (getOrCreateDirtyFile st file).1.bpsStore = st.bpsStore := by
  unfold getOrCreateDirtyFile
  cases lookupA st.dirtyFiles file.tailPtr <;> simp

/-- The tracker block-state list that `cacheBlockIfNotYetDirtyLocked`
consults for `needsCaching`. -/
def dfStatesOf (st : FBOState) (file : FilePath) : List (BlockPointer × BlkTrack) :=
  ((lookupA st.dirtyFiles file.tailPtr).getD newDirtyFile).blockStates

theorem getOrCreateDirtyFile_snd (st : FBOState) (file : FilePath) :
    (getOrCreateDirtyFile st file).2.blockStates = dfStatesOf st file := by
  unfold getOrCreateDirtyFile dfStatesOf
  cases lookupA st.dirtyFiles file.tailPtr <;> simp

theorem cacheBlockIfNotYetDirty_fields (st : FBOState) (ptr : BlockPointer)
    (file : FilePath) (b : FileBlock) (a : Bool) :
    (cacheBlockIfNotYetDirty st ptr file b a).cleanBcache = st.cleanBcache ∧
    (cacheBlockIfNotYetDirty st ptr file b a).srvBlocks = st.srvBlocks ∧
    (cacheBlockIfNotYetDirty st ptr file b a).deCache = st.deCache ∧
    (cacheBlockIfNotYetDirty st ptr file b a).unrefCache = st.unrefCache ∧
    (cacheBlockIfNotYetDirty st ptr file b a).nextBlockId = st.nextBlockId ∧
    (cacheBlockIfNotYetDirty st ptr file b a).deferredWrites =
      st.deferredWrites ∧
    (cacheBlockIfNotYetDirty st ptr file b a).deferredDirtyDeletes =
      st.deferredDirtyDeletes ∧
    (cacheBlockIfNotYetDirty st ptr file b a).unsyncedBytes =
      st.unsyncedBytes ∧
    (cacheBlockIfNotYetDirty st ptr file b a).bpsStore = st.bpsStore := by
  refine ⟨?_, ?_, ?_, ?_, ?_, ?_, ?_, ?_, ?_⟩ <;>
    (unfold cacheBlockIfNotYetDirty getOrCreateDirtyFile dfSetBlockDirty
      putDirtyFile;
     cases lookupA st.dirtyFiles file.tailPtr <;>
       (simp only []; split <;> (try split) <;> rfl))

/-- The dirty-cache entry written by `cacheBlockIfNotYetDirtyLocked`:
the block is stored when the pointer is new to the tracker or the
caller's block aliased the cache entry. -/
theorem cacheBlockIfNotYetDirty_dirty_lookup (st : FBOState)
    (ptr : BlockPointer) (file : FilePath) (b : FileBlock) (a : Bool)
    (q : BlockPointer) :
    lookupA (cacheBlockIfNotYetDirty st ptr file b a).dirtyBcache q =
      if ((lookupA (dfStatesOf st file) ptr).isNone = true ∨ a = true) ∧ q = ptr
      then some b else lookupA st.dirtyBcache q := by
  have hstates := getOrCreateDirtyFile_snd st file
  have hdb := (getOrCreateDirtyFile_fields st file).1
  unfold cacheBlockIfNotYetDirty
  simp only [dfSetBlockDirty, putDirtyFile]
  rw [hstates]
  split_ifs <;> simp_all [lookupA_insertA]

theorem storeTop_dirty_lookup (st : FBOState) (file : FilePath)
    (top : FileBlock) (q : BlockPointer) :
    lookupA (storeTop st file top true).dirtyBcache q =
      if q = file.tailPtr then some top else lookupA st.dirtyBcache q := by
  unfold storeTop
  simp [lookupA_insertA]

theorem storeTop_fields (st : FBOState) (file : FilePath) (top : FileBlock)
    (a : Bool) :
    (storeTop st file top a).cleanBcache = st.cleanBcache ∧
    (storeTop st file top a).srvBlocks = st.srvBlocks ∧
    (storeTop st file top a).deCache = st.deCache ∧
    (storeTop st file top a).unrefCache = st.unrefCache ∧
    (storeTop st file top a).nextBlockId = st.nextBlockId ∧
    (storeTop st file top a).dirtyFiles = st.dirtyFiles := by
  unfold storeTop
  split <;> simp

theorem updateSyncInfo_fields (st : FBOState) (ref : BlockRef)
    (f : SyncInfo → SyncInfo) :
    (updateSyncInfo st ref f).dirtyBcache = st.dirtyBcache ∧
    (updateSyncInfo st ref f).cleanBcache = st.cleanBcache ∧
    (updateSyncInfo st ref f).srvBlocks = st.srvBlocks ∧
    (updateSyncInfo st ref f).deCache = st.deCache ∧
    (updateSyncInfo st ref f).nextBlockId = st.nextBlockId ∧
    (updateSyncInfo st ref f).dirtyFiles = st.dirtyFiles := by
  unfold updateSyncInfo
  simp

theorem cacheBlockIfNotYetDirty_dirStore (st : FBOState) (ptr : BlockPointer)
    (file : FilePath) (b : FileBlock) (a : Bool) :
    (cacheBlockIfNotYetDirty st ptr file b a).dirStore = st.dirStore := by
  unfold cacheBlockIfNotYetDirty getOrCreateDirtyFile dfSetBlockDirty
    putDirtyFile
  cases lookupA st.dirtyFiles file.tailPtr <;>
    (simp only []; split <;> (try split) <;> rfl)

theorem storeTop_dirStore (st : FBOState) (file : FilePath) (top : FileBlock)
    (a : Bool) : (storeTop st file top a).dirStore = st.dirStore := by
  unfold storeTop
  split <;> rfl

theorem updateSyncInfo_dirStore (st : FBOState) (ref : BlockRef)
    (f : SyncInfo → SyncInfo) :
    (updateSyncInfo st ref f).dirStore = st.dirStore := rfl

theorem getFileBlockL_fields {st : FBOState} {ptr : BlockPointer}
    {st' : FBOState} {b : FileBlock}
    (h : getFileBlockL st ptr = .ok (st', b)) :
    st'.dirtyBcache = st.dirtyBcache ∧ st'.dirtyFiles = st.dirtyFiles ∧
    st'.deCache = st.deCache ∧ st'.unrefCache = st.unrefCache ∧
    st'.nextBlockId = st.nextBlockId ∧ st'.dirStore = st.dirStore ∧
    st'.srvBlocks = st.srvBlocks ∧ st'.bpsStore = st.bpsStore ∧
    st'.deferredWrites = st.deferredWrites ∧
    st'.deferredDirtyDeletes = st.deferredDirtyDeletes ∧
    st'.unsyncedBytes = st.unsyncedBytes := by
  unfold getFileBlockL at h
  split at h
  · obtain ⟨rfl, rfl⟩ := Prod.mk.injEq .. ▸ Except.ok.injEq .. ▸ h
    simp
  · split at h
    · obtain ⟨rfl, rfl⟩ := Prod.mk.injEq .. ▸ Except.ok.injEq .. ▸ h
      simp
    · split at h
      · obtain ⟨rfl, rfl⟩ := Prod.mk.injEq .. ▸ Except.ok.injEq .. ▸ h
        simp
      · exact absurd h (by simp)

theorem dfStatesOf_cacheBlockIfNotYetDirty (st : FBOState)
    (ptr : BlockPointer) (file : FilePath) (b : FileBlock) (a : Bool) :
    dfStatesOf (cacheBlockIfNotYetDirty st ptr file b a) file =
      insertA (dfStatesOf st file) ptr
        (match lookupA (dfStatesOf st file) ptr with
         | some s => { s with dirty := true }
         | none => ⟨true, false, false, false⟩) := by
  have hstates := getOrCreateDirtyFile_snd st file
  simp only [cacheBlockIfNotYetDirty, dfSetBlockDirty, hstates]
  unfold dfStatesOf putDirtyFile
  split_ifs <;> simp [lookupA_insertA]

theorem dfStatesOf_storeTop (st : FBOState) (file : FilePath)
    (top : FileBlock) (a : Bool) :
    dfStatesOf (storeTop st file top a) file = dfStatesOf st file := by
  unfold dfStatesOf
  rw [(storeTop_fields st file top a).2.2.2.2.2]

theorem dfStatesOf_updateSyncInfo (st : FBOState) (ref : BlockRef)
    (f : SyncInfo → SyncInfo) :
    dfStatesOf (updateSyncInfo st ref f) file = dfStatesOf st file := rfl

theorem dfStatesOf_congr {st st' : FBOState} (file : FilePath)
    (h : st'.dirtyFiles = st.dirtyFiles) :
    dfStatesOf st' file = dfStatesOf st file := by
  unfold dfStatesOf
  rw [h]

theorem dfStatesOf_putDirtyFile (st : FBOState) (file : FilePath)
    (df : DirtyFile) :
    dfStatesOf (putDirtyFile st file df) file = df.blockStates := by
  unfold dfStatesOf putDirtyFile
  simp [lookupA_insertA]

theorem getOrCreateSyncInfo_fields (st : FBOState) (de : DirEntry) :
    (getOrCreateSyncInfo st de).1.dirtyBcache = st.dirtyBcache ∧
    (getOrCreateSyncInfo st de).1.cleanBcache = st.cleanBcache ∧
    (getOrCreateSyncInfo st de).1.srvBlocks = st.srvBlocks ∧
    (getOrCreateSyncInfo st de).1.deCache = st.deCache ∧
    (getOrCreateSyncInfo st de).1.dirtyFiles = st.dirtyFiles ∧
    (getOrCreateSyncInfo st de).1.nextBlockId = st.nextBlockId ∧
    (getOrCreateSyncInfo st de).1.dirStore = st.dirStore := by
  unfold getOrCreateSyncInfo
  cases lookupA st.unrefCache de.ref <;> simp

theorem createIndirectBlock_snd (st : FBOState) (file : FilePath) :
    (createIndirectBlock st file).2 =
      ⟨true, [], [⟨⟨⟨st.nextBlockId, 0⟩, 0⟩, 0, false⟩]⟩ := by
  unfold createIndirectBlock freshPtr
  rfl

theorem createIndirectBlock_dirty_lookup (st : FBOState) (file : FilePath)
    (q : BlockPointer) :
    lookupA (createIndirectBlock st file).1.dirtyBcache q =
      if q = file.tailPtr then some (createIndirectBlock st file).2
      else lookupA st.dirtyBcache q := by
  unfold createIndirectBlock freshPtr
  simp only []
  rw [cacheBlockIfNotYetDirty_dirty_lookup]
  rw [dfStatesOf_putDirtyFile]
  simp only [lookupA_eraseA, if_pos rfl, Option.isNone_none, true_or,
    true_and]
  have hdb : (getOrCreateDirtyFile
      { st with nextBlockId := st.nextBlockId + 1 } file).1.dirtyBcache =
      st.dirtyBcache := (getOrCreateDirtyFile_fields _ file).1
  split <;> simp_all [putDirtyFile]

theorem cbnyd_cleanBcache (st : FBOState) (ptr : BlockPointer)
    (file : FilePath) (b : FileBlock) (a : Bool) :
    (cacheBlockIfNotYetDirty st ptr file b a).cleanBcache = st.cleanBcache :=
  (cacheBlockIfNotYetDirty_fields st ptr file b a).1

theorem cbnyd_srvBlocks (st : FBOState) (ptr : BlockPointer)
    (file : FilePath) (b : FileBlock) (a : Bool) :
    (cacheBlockIfNotYetDirty st ptr file b a).srvBlocks = st.srvBlocks :=
  (cacheBlockIfNotYetDirty_fields st ptr file b a).2.1

theorem cbnyd_deCache (st : FBOState) (ptr : BlockPointer)
    (file : FilePath) (b : FileBlock) (a : Bool) :
    (cacheBlockIfNotYetDirty st ptr file b a).deCache = st.deCache :=
  (cacheBlockIfNotYetDirty_fields st ptr file b a).2.2.1

theorem cbnyd_unrefCache (st : FBOState) (ptr : BlockPointer)
    (file : FilePath) (b : FileBlock) (a : Bool) :
    (cacheBlockIfNotYetDirty st ptr file b a).unrefCache = st.unrefCache :=
  (cacheBlockIfNotYetDirty_fields st ptr file b a).2.2.2.1

theorem cbnyd_nextBlockId (st : FBOState) (ptr : BlockPointer)
    (file : FilePath) (b : FileBlock) (a : Bool) :
    (cacheBlockIfNotYetDirty st ptr file b a).nextBlockId = st.nextBlockId :=
  (cacheBlockIfNotYetDirty_fields st ptr file b a).2.2.2.2.1

theorem storeTop_cleanBcache (st : FBOState) (file : FilePath)
    (top : FileBlock) (a : Bool) :
    (storeTop st file top a).cleanBcache = st.cleanBcache :=
  (storeTop_fields st file top a).1

theorem storeTop_deCache (st : FBOState) (file : FilePath)
    (top : FileBlock) (a : Bool) :
    (storeTop st file top a).deCache = st.deCache :=
  (storeTop_fields st file top a).2.2.1

theorem storeTop_unrefCache (st : FBOState) (file : FilePath)
    (top : FileBlock) (a : Bool) :
    (storeTop st file top a).unrefCache = st.unrefCache :=
  (storeTop_fields st file top a).2.2.2.1

theorem storeTop_nextBlockId (st : FBOState) (file : FilePath)
    (top : FileBlock) (a : Bool) :
    (storeTop st file top a).nextBlockId = st.nextBlockId :=
  (storeTop_fields st file top a).2.2.2.2.1

theorem storeTop_dirtyFiles (st : FBOState) (file : FilePath)
    (top : FileBlock) (a : Bool) :
    (storeTop st file top a).dirtyFiles = st.dirtyFiles :=
  (storeTop_fields st file top a).2.2.2.2.2

theorem updSI_dirtyBcache (st : FBOState) (ref : BlockRef)
    (f : SyncInfo → SyncInfo) :
    (updateSyncInfo st ref f).dirtyBcache = st.dirtyBcache := rfl

theorem updSI_deCache (st : FBOState) (ref : BlockRef)
    (f : SyncInfo → SyncInfo) :
    (updateSyncInfo st ref f).deCache = st.deCache := rfl

theorem updSI_nextBlockId (st : FBOState) (ref : BlockRef)
    (f : SyncInfo → SyncInfo) :
    (updateSyncInfo st ref f).nextBlockId = st.nextBlockId := rfl

theorem updSI_dirtyFiles (st : FBOState) (ref : BlockRef)
    (f : SyncInfo → SyncInfo) :
    (updateSyncInfo st ref f).dirtyFiles = st.dirtyFiles := rfl

theorem gocSI_dirtyBcache (st : FBOState) (de : DirEntry) :
    (getOrCreateSyncInfo st de).1.dirtyBcache = st.dirtyBcache :=
  (getOrCreateSyncInfo_fields st de).1

theorem gocSI_deCache (st : FBOState) (de : DirEntry) :
    (getOrCreateSyncInfo st de).1.deCache = st.deCache :=
  (getOrCreateSyncInfo_fields st de).2.2.2.1

theorem gocSI_dirtyFiles (st : FBOState) (de : DirEntry) :
    (getOrCreateSyncInfo st de).1.dirtyFiles = st.dirtyFiles :=
  (getOrCreateSyncInfo_fields st de).2.2.2.2.1

theorem gocSI_nextBlockId (st : FBOState) (de : DirEntry) :
    (getOrCreateSyncInfo st de).1.nextBlockId = st.nextBlockId :=
  (getOrCreateSyncInfo_fields st de).2.2.2.2.2.1

theorem gocDF_dirtyBcache (st : FBOState) (file : FilePath) :
    (getOrCreateDirtyFile st file).1.dirtyBcache = st.dirtyBcache :=
  (getOrCreateDirtyFile_fields st file).1

theorem gocDF_cleanBcache (st : FBOState) (file : FilePath) :
    (getOrCreateDirtyFile st file).1.cleanBcache = st.cleanBcache :=
  (getOrCreateDirtyFile_fields st file).2.1

theorem gocDF_srvBlocks (st : FBOState) (file : FilePath) :
    (getOrCreateDirtyFile st file).1.srvBlocks = st.srvBlocks :=
  (getOrCreateDirtyFile_fields st file).2.2.1

theorem gocDF_deCache (st : FBOState) (file : FilePath) :
    (getOrCreateDirtyFile st file).1.deCache = st.deCache :=
  (getOrCreateDirtyFile_fields st file).2.2.2.1

theorem gocDF_unrefCache (st : FBOState) (file : FilePath) :
    (getOrCreateDirtyFile st file).1.unrefCache = st.unrefCache :=
  (getOrCreateDirtyFile_fields st file).2.2.2.2.1

theorem gocDF_nextBlockId (st : FBOState) (file : FilePath) :
    (getOrCreateDirtyFile st file).1.nextBlockId = st.nextBlockId :=
  (getOrCreateDirtyFile_fields st file).2.2.2.2.2.1

theorem gocDF_dirStore (st : FBOState) (file : FilePath) :
    (getOrCreateDirtyFile st file).1.dirStore = st.dirStore := by
  unfold getOrCreateDirtyFile
  cases lookupA st.dirtyFiles file.tailPtr <;> simp

theorem createIndirectBlock_fields (st : FBOState) (file : FilePath) :
    (createIndirectBlock st file).1.nextBlockId = st.nextBlockId + 1 ∧
    (createIndirectBlock st file).1.cleanBcache = st.cleanBcache ∧
    (createIndirectBlock st file).1.srvBlocks = st.srvBlocks ∧
    (createIndirectBlock st file).1.deCache = st.deCache ∧
    (createIndirectBlock st file).1.unrefCache = st.unrefCache ∧
    (createIndirectBlock st file).1.dirStore = st.dirStore := by
  unfold createIndirectBlock freshPtr
  simp only []
  refine ⟨?_, ?_, ?_, ?_, ?_, ?_⟩ <;>
    simp [cbnyd_cleanBcache, cbnyd_srvBlocks, cbnyd_deCache, cbnyd_unrefCache,
      cbnyd_nextBlockId, cacheBlockIfNotYetDirty_dirStore, putDirtyFile,
      gocDF_cleanBcache, gocDF_srvBlocks, gocDF_deCache, gocDF_unrefCache,
      gocDF_nextBlockId, gocDF_dirStore]

theorem dfStatesOf_createIndirectBlock (st : FBOState) (file : FilePath)
    (q : BlockPointer) (hq : q ≠ file.tailPtr) :
    lookupA (dfStatesOf (createIndirectBlock st file).1 file) q =
      lookupA (dfStatesOf st file) q := by
  unfold createIndirectBlock freshPtr
  simp only []
  rw [dfStatesOf_cacheBlockIfNotYetDirty, dfStatesOf_putDirtyFile]
  simp only [lookupA_insertA, lookupA_eraseA, if_neg hq]
  rw [getOrCreateDirtyFile_snd]
  rfl

/-- `newRightBlockLocked`, unfolded to its primitive steps. -/
theorem newRightBlock_eq (st : FBOState) (file : FilePath)
    (pblock : FileBlock) (off : Int) (a : Bool) :
    newRightBlock st file pblock off a =
      (cacheBlockIfNotYetDirty
        (cacheBlockIfNotYetDirty { st with nextBlockId := st.nextBlockId + 1 }
          ⟨st.nextBlockId, 0⟩ file ⟨false, [], []⟩ false)
        file.tailPtr file
        { pblock with iptrs := (pblock.iptrs ++
            [⟨⟨⟨st.nextBlockId, 0⟩, 0⟩, off, false⟩]) } a,
       { pblock with iptrs := (pblock.iptrs ++
           [⟨⟨⟨st.nextBlockId, 0⟩, 0⟩, off, false⟩]) },
       ⟨⟨⟨st.nextBlockId, 0⟩, 0⟩, off, false⟩) := by
  unfold newRightBlock freshPtr
  rfl

theorem dfStatesOf_bumpId (st : FBOState) (n : Nat) (file : FilePath) :
    dfStatesOf { st with nextBlockId := n } file = dfStatesOf st file := rfl

/-- A block ID at or above the temporary-ID counter is unknown to the
file's tracker. -/
theorem dfStatesOf_fresh_none (st : FBOState) (file : FilePath)
    (q : BlockPointer)
    (hdf : ∀ e ∈ dfStatesOf st file, e.1.id < st.nextBlockId)
    (hq : st.nextBlockId ≤ q.id) :
    lookupA (dfStatesOf st file) q = none := by
  cases hc : lookupA (dfStatesOf st file) q with
  | none => rfl
  | some tr =>
    have h2 := hdf _ (lookupA_mem hc)
    simp at h2
    omega

/-- Properties of a successful `truncExtFinish`: the new indirect top
block with all pointers marked `Holes`, the fresh right block at offset
`size`, and the cached directory entry.  The hypotheses say the
conversion state's next temporary ID is fresh for the tracker and
differs from the tail pointer, and the conversion top is indirect. -/
theorem truncExtFinish_props
    (conv : FBOState × FileBlock × Bool × List BlockPointer)
    (file : FilePath) (size : Nat) (stE : FBOState) (lw : WriteRange)
    (dps : List BlockPointer)
    (hfresh : lookupA (dfStatesOf conv.1 file) ⟨conv.1.nextBlockId, 0⟩ = none)
    (htne : (⟨conv.1.nextBlockId, 0⟩ : BlockPointer) ≠ file.tailPtr)
    (hct : conv.2.1.isInd = true)
    (h : truncExtFinish conv file size = (stE, .ok (lw, dps))) :
    lw = ⟨size, 0⟩ ∧
    ∃ top : FileBlock,
      lookupA stE.dirtyBcache file.tailPtr = some top ∧
      top.isInd = true ∧
      (∀ ip ∈ top.iptrs, ip.holes = true) ∧
      top.iptrs.getLast?.map (fun ip => ip.off) = some (Int.ofNat size) ∧
      (∃ rp : BlockPointer,
        top.iptrs.getLast?.map (fun ip => ip.info.ptr) = some rp ∧
        rp ≠ file.tailPtr ∧
        lookupA stE.dirtyBcache rp = some ⟨false, [], []⟩) ∧
      (lookupA stE.deCache file.tailPtr.ref).map (fun d => d.size) =
        some size := by
  obtain ⟨cs, ct, ca, cps⟩ := conv
  simp only [] at hfresh htne hct
  unfold truncExtFinish at h
  simp only [] at h
  rw [newRightBlock_eq] at h
  simp only [] at h
  split at h
  · exact absurd (congrArg Prod.snd h) (by simp)
  rename_i de hde
  injection h with hE hok
  injection hok with hp
  injection hp with hL hD
  subst hE
  subst hL
  refine ⟨rfl, { ct with iptrs := ((ct.iptrs ++
      [(⟨⟨⟨cs.nextBlockId, 0⟩, 0⟩, Int.ofNat size, false⟩ :
        IndirectFilePtr)]).map
        (fun ip : IndirectFilePtr => { ip with holes := true })) },
    ?_, hct, ?_, ?_,
    ⟨⟨cs.nextBlockId, 0⟩, ?_, htne, ?_⟩, ?_⟩
  · rw [updSI_dirtyBcache, cacheBlockIfNotYetDirty_dirty_lookup,
      if_pos (by simp)]
  · intro ip hip
    simp only [List.mem_map] at hip
    obtain ⟨x, -, rfl⟩ := hip
    rfl
  · simp
  · simp
  · rw [updSI_dirtyBcache, cacheBlockIfNotYetDirty_dirty_lookup,
      if_neg (by simp [htne]), storeTop_dirty_lookup, if_neg htne]
    simp only []
    rw [gocSI_dirtyBcache, cacheBlockIfNotYetDirty_dirty_lookup,
      if_neg (by simp [htne]), cacheBlockIfNotYetDirty_dirty_lookup,
      dfStatesOf_bumpId, hfresh]
    simp
  · rw [updSI_deCache, cbnyd_deCache, storeTop_deCache]
    simp [lookupA_insertA]

/-- On success, `truncateExtendLocked` reports the write range
`(size, 0)` and leaves in the dirty cache an indirect top block all of
whose indirect pointers carry `Holes = true`, whose last pointer sits
exactly at offset `size` and addresses a freshly allocated empty block
(also dirty-cached), while the cached directory entry records the new
size.  The hypotheses say the tracker and the tail pointer only use
already-allocated block IDs. -/
theorem truncateExtend_props (cfg : Config) (st0 stE : FBOState)
    (file : FilePath) (size : Nat) (lw : WriteRange)
    (dps : List BlockPointer)
    (hdf : ∀ e ∈ dfStatesOf st0 file, e.1.id < st0.nextBlockId)
    (htl : file.tailPtr.id < st0.nextBlockId)
    (h : truncateExtendLocked cfg st0 file size = (stE, .ok (lw, dps))) :
    lw = ⟨size, 0⟩ ∧
    ∃ top : FileBlock,
      lookupA stE.dirtyBcache file.tailPtr = some top ∧
      top.isInd = true ∧
      (∀ ip ∈ top.iptrs, ip.holes = true) ∧
      top.iptrs.getLast?.map (fun ip => ip.off) = some (Int.ofNat size) ∧
      (∃ rp : BlockPointer,
        top.iptrs.getLast?.map (fun ip => ip.info.ptr) = some rp ∧
        rp ≠ file.tailPtr ∧
        lookupA stE.dirtyBcache rp = some ⟨false, [], []⟩) ∧
      (lookupA stE.deCache file.tailPtr.ref).map (fun d => d.size) =
        some size := by
  unfold truncateExtendLocked at h
  split at h
  · exact absurd (congrArg Prod.snd h) (by simp)
  split at h
  · exact absurd (congrArg Prod.snd h) (by simp)
  split at h
  · exact absurd (congrArg Prod.snd h) (by simp)
  split at h
  · exact absurd (congrArg Prod.snd h) (by simp)
  rename_i st1 fblock hgb
  have hfields := getFileBlockL_fields hgb
  have hnid : st1.nextBlockId = st0.nextBlockId := hfields.2.2.2.2.1
  have hdfs : dfStatesOf st1 file = dfStatesOf st0 file :=
    dfStatesOf_congr file hfields.2.1
  have htailne : (⟨st1.nextBlockId, 0⟩ : BlockPointer) ≠ file.tailPtr := by
    intro he
    have h2 := congrArg BlockPointer.id he
    simp only [hnid] at h2
    omega
  have hfresh : lookupA (dfStatesOf st1 file)
      (⟨st1.nextBlockId, 0⟩ : BlockPointer) = none := by
    rw [hdfs]
    exact dfStatesOf_fresh_none st0 file _ hdf (by simp only [hnid]; omega)
  by_cases hind : fblock.isInd = true
  · have hc1 : (truncExtConv st1 file fblock).1 = st1 := by
      unfold truncExtConv
      simp only []
      rw [if_neg (fun hc => hc hind)]
    have hc2 : (truncExtConv st1 file fblock).2.1 = fblock := by
      unfold truncExtConv
      simp only []
      rw [if_neg (fun hc => hc hind)]
    exact truncExtFinish_props _ file size stE lw dps
      (by rw [hc1]; exact hfresh) (by rw [hc1]; exact htailne)
      (by rw [hc2]; exact hind) h
  · have hT1 : setHolesAt (createIndirectBlock st1 file).2 0 =
        ⟨true, [], [⟨⟨⟨st1.nextBlockId, 0⟩, 0⟩, 0, true⟩]⟩ := by
      rw [createIndirectBlock_snd]
      rfl
    have hc1 : (truncExtConv st1 file fblock).1 =
        cacheBlockIfNotYetDirty
          (storeTop (createIndirectBlock st1 file).1 file
            ⟨true, [], [⟨⟨⟨st1.nextBlockId, 0⟩, 0⟩, 0, true⟩]⟩ true)
          ⟨st1.nextBlockId, 0⟩ file fblock false := by
      unfold truncExtConv
      simp only []
      rw [if_pos hind, hT1]
      rfl
    have hc2 : (truncExtConv st1 file fblock).2.1 =
        ⟨true, [], [⟨⟨⟨st1.nextBlockId, 0⟩, 0⟩, 0, true⟩]⟩ := by
      unfold truncExtConv
      simp only []
      rw [if_pos hind, hT1]
    have hcsid : (truncExtConv st1 file fblock).1.nextBlockId =
        st0.nextBlockId + 1 := by
      rw [hc1, cbnyd_nextBlockId, storeTop_nextBlockId,
        (createIndirectBlock_fields st1 file).1, hnid]
    have htailne2 : (⟨st0.nextBlockId + 1, 0⟩ : BlockPointer) ≠
        file.tailPtr := by
      intro he
      have h2 := congrArg BlockPointer.id he
      simp only [] at h2
      omega
    refine truncExtFinish_props _ file size stE lw dps ?_ ?_
      (by rw [hc2]) h
    · rw [hcsid, hc1]
      rw [dfStatesOf_cacheBlockIfNotYetDirty, dfStatesOf_storeTop,
        lookupA_insertA,
        if_neg (by intro hc; rw [BlockPointer.mk.injEq] at hc; omega),
        dfStatesOf_createIndirectBlock st1 file _ htailne2, hdfs]
      exact dfStatesOf_fresh_none st0 file _ hdf (by simp only []; omega)
    · rw [hcsid]
      exact htailne2

/-! ### The branch structure of `truncateLocked` -/

/-- Whether `truncateLocked` would take the extend-with-a-hole path:
the found block's end plus the 128 KiB cutoff lies strictly below the
requested size. -/
def truncateTakesHolePath (cfg : Config) (fuel : Nat) (st : FBOState)
    (file : FilePath) (size : Nat) : Bool :=
  match getFileBlockL st file.tailPtr with
  | .error _ => false
  | .ok (st1, fblock) =>
    match getFileBlockAtOffset st1 file fblock (size : Int) fuel with
    | .error _ => false
    | .ok (_, res) =>
      decide (res.startOff + (res.block.contents.length : Int) +
        truncateExtendCutoffPoint < (size : Int))

theorem truncateLocked_eq_extend (cfg : Config) (fuel : Nat)
    (st st1 st2 : FBOState) (file : FilePath) (size : Nat)
    (fblock : FileBlock) (res : FindRes)
    (hw : cfg.isWriter = true) (hv : file.valid = true)
    (htop : getFileBlockL st file.tailPtr = .ok (st1, fblock))
    (hfind : getFileBlockAtOffset st1 file fblock (size : Int) fuel =
      .ok (st2, res))
    (hcond : res.startOff + (res.block.contents.length : Int) +
      truncateExtendCutoffPoint < (size : Int)) :
    truncateLocked cfg fuel st file size =
      (match truncateExtendLocked cfg st2 file size with
       | (s, .error e) => (s, .error e)
       | (s, .ok (lw, dps)) => (s, .ok (some lw, dps, 0))) := by
  unfold truncateLocked
  rw [htop]
  simp only [hw, hv, not_true, Bool.not_true]
  rw [hfind]
  simp only
  rw [if_pos hcond]
  simp

theorem truncateLocked_eq_zerofill (cfg : Config) (fuel : Nat)
    (st st1 st2 : FBOState) (file : FilePath) (size : Nat)
    (fblock : FileBlock) (res : FindRes)
    (hw : cfg.isWriter = true) (hv : file.valid = true)
    (htop : getFileBlockL st file.tailPtr = .ok (st1, fblock))
    (hfind : getFileBlockAtOffset st1 file fblock (size : Int) fuel =
      .ok (st2, res))
    (hno : ¬ (res.startOff + (res.block.contents.length : Int) +
      truncateExtendCutoffPoint < (size : Int)))
    (hlt : res.startOff + (res.block.contents.length : Int) < (size : Int)) :
    truncateLocked cfg fuel st file size =
      (match writeDataLocked cfg fuel st2 file
          (List.replicate
            ((size : Int) - (res.startOff + (res.block.contents.length : Int))).toNat 0)
          (res.startOff + (res.block.contents.length : Int)) with
       | (s, .error e) => (s, .error e)
       | (s, .ok (lw, dps, n)) => (s, .ok (some lw, dps, n))) := by
  unfold truncateLocked
  rw [htop]
  simp only [hw, hv, not_true, Bool.not_true]
  rw [hfind]
  simp only
  rw [if_neg hno, if_pos hlt]
  simp

/-! ### C9 -/

/-- C9.  When a block fetch inside the read loop fails with a
deadline-expired error after at least one byte has been copied, the
loop returns the byte count read so far with no error (a short read);
with zero bytes read the error is propagated with count 0.  And when
the ambient deadline is more than `readTimeoutSmallerBy = 2` seconds
away, `Read` installs an internal deadline exactly 2 seconds shorter
(otherwise the ambient deadline is kept). -/
theorem c9_read_short_read (st : FBOState)
    (fetch : BlockPointer → Except KbfsError FileBlock) (file : FilePath)
    (fblock : FileBlock) (n off : Int) (fuel : Nat) (dest : List Nat)
    (nRead : Int)
    (hfind : getFileBlockAtOffsetR st fetch file fblock (nRead + off) =
      .error .deadlineExceeded)
    (hlt : nRead < n) :
    (0 < nRead →
      readLoop st fetch file fblock n off (fuel + 1) dest nRead =
        (nRead, dest, none)) ∧
    (nRead = 0 →
      readLoop st fetch file fblock n off (fuel + 1) dest nRead =
        (0, dest, some .deadlineExceeded)) ∧
    (∀ now d : Int, readTimeoutSmallerBy < d - now →
      readEffectiveDeadline now (some d) = some (d - readTimeoutSmallerBy)) ∧
    (∀ now d : Int, d - now ≤ readTimeoutSmallerBy →
      readEffectiveDeadline now (some d) = some d) := by
  refine ⟨?_, ?_, ?_, ?_⟩
  · intro hpos
    simp only [readLoop, if_pos hlt, hfind]
    simp [hpos]
  · intro h0
    subst h0
    simp only [readLoop, if_pos hlt, hfind]
    simp
  · intro now d h
    simp only [readEffectiveDeadline]
    rw [if_pos (by omega)]
  · intro now d h
    simp only [readEffectiveDeadline]
    rw [if_neg (by omega)]

def c9tail : BlockPointer := ⟨1, 0⟩

def c9A : BlockPointer := ⟨2, 0⟩

def c9B : BlockPointer := ⟨3, 0⟩

def c9file : FilePath := ⟨⟨0, 0⟩, "f", c9tail, true⟩

def c9top : FileBlock :=
  ⟨true, [], [⟨⟨c9A, 4⟩, 0, false⟩, ⟨⟨c9B, 4⟩, 4, false⟩]⟩

/-- An indirect file whose first leaf is cached and whose second leaf
must be fetched from the network. -/
def c9st : FBOState :=
  { dirtyBcache := [(c9tail, c9top), (c9A, ⟨false, [10, 11, 12, 13], []⟩)]
    cleanBcache := []
    srvBlocks := []
    dirStore := []
    deCache := []
    unrefCache := []
    dirtyFiles := []
    deferredWrites := []
    deferredDirtyDeletes := []
    doDeferWrite := false
    bpsStore := []
    nextBlockId := 50
    unsyncedBytes := 0
    notifications := [] }

/-- A fetch oracle that expires exactly under the internal deadline
`10 - 2 = 8` installed by `Read(now = 0, deadline = 10)`: the observed
short read goes through the shortened context. -/
def c9fetch : Option Int → BlockPointer → Except KbfsError FileBlock :=
  fun ictx _ =>
    if ictx = some 8 then .error .deadlineExceeded else .error .noSuchBlock

/-- C9 witness: a `Read` of 8 bytes over the two-leaf file copies the 4
cached bytes, hits the deadline-expired fetch on the second leaf under
the internal deadline 8 = 10 − 2, and returns the 4-byte short read
with no error. -/
theorem c9_read_short_read_witness :
    (getFileBlockAtOffsetR c9st (c9fetch (some 8)) c9file c9top ((4 : Int) + 0) =
        .error .deadlineExceeded ∧ (4 : Int) < 8) ∧
    readLoop c9st (c9fetch (some 8)) c9file c9top 8 0 5 [10, 11, 12, 13, 9, 9, 9, 9] 4 =
      (4, [10, 11, 12, 13, 9, 9, 9, 9], none) ∧
    Read c9st c9fetch 0 (some 10) c9file [9, 9, 9, 9, 9, 9, 9, 9] 0 =
      (4, [10, 11, 12, 13, 9, 9, 9, 9], none) := by
  refine ⟨⟨by decide, by decide⟩, ?_, by decide⟩
  exact (c9_read_short_read c9st (c9fetch (some 8)) c9file c9top 8 0 4
    [10, 11, 12, 13, 9, 9, 9, 9] 4 (by decide) (by decide)).1 (by decide)

end KbfsProof
